import Mathlib

/-!
Verification of the ASE VASP calculator driver (ase/calculators/vasp.py).

This file gives a shallow embedding, in Lean, of the data model and the
operations of the driver that the checked claims are about:

* the typed parameter registry and the change gate (calculation_required,
  set, set_xc_params, set_results),
* the atom reordering protocol (initialize: sort and resort),
* the INCAR magnetic-moment run-length writer and the INCAR reader,
* the volumetric charge-density codec (VaspChargeDensity),
* the property accessors returning not-implemented signals,
* process invocation (run) and its environment resolution,
* the OUTCAR convergence reader with its exponent-repair parsing.

Numbers are modelled by rationals; Python strings by Lean strings backed by
explicit character-list functions, so that every definition is executable.
Fallible Python code (raising exceptions) is modelled with Option or Except,
or with a result paired with an optional exception, when the partial state
mutation performed before a raise matters.
-/

namespace AseVasp

/-! ### Python value and error model -/

/-- A small universe of Python values as they occur in the parameter
dictionaries of the calculator: None, ints, floats (as rationals), strings,
bools, numeric lists, int lists. -/
inductive PVal where
  | pnone : PVal
  | pint : ℤ → PVal
  | prat : ℚ → PVal
  | pstr : String → PVal
  | pbool : Bool → PVal
  | plist : List ℚ → PVal
  | pilist : List ℤ → PVal
  deriving DecidableEq, Repr

/-- The Python exceptions raised by the modelled code paths. -/
inductive PyErr where
  | typeError : String → PyErr
  | valueError : String → PyErr
  | attributeError : PyErr
  | propertyNotImplementedError : PyErr
  | runtimeError : String → PyErr
  deriving DecidableEq, Repr

/-- Truthiness of an optional boolean, as Python sees the converged flag:
None is falsy, otherwise the boolean itself. -/
def pyTruthy : Option Bool → Bool
  | none => false
  | some b => b

/-- Python list comparison, elementwise lexicographic with the shorter list
smaller; embeds the comparison that the expression
[abs(a), abs(b)] < [ediff, ediff] performs in read_convergence. -/
def pyListLt : List ℚ → List ℚ → Bool
  | [], [] => false
  | [], _ :: _ => true
  | _ :: _, [] => false
  | a :: as, b :: bs => if a < b then true else if b < a then false else pyListLt as bs

/-! ### Character-list string utilities

Python string methods used by the driver, written as executable functions
over explicit character lists. -/

/-- One decimal digit value of a character, if it is a digit. -/
def digitVal (c : Char) : Option ℕ :=
  if c.isDigit then some (c.toNat - 48) else none

/-- Accumulator loop of the decimal-digits reading. -/
def natOfDigitsAux (acc : ℕ) : List Char → Option ℕ
  | [] => some acc
  | c :: r =>
    match digitVal c with
    | some d => natOfDigitsAux (acc * 10 + d) r
    | none => none

/-- Read a nonempty all-digit character list as a natural number. -/
def natOfDigits : List Char → Option ℕ
  | [] => none
  | l => natOfDigitsAux 0 l

/-- Split a character list at every occurrence of characters satisfying the
predicate, keeping empty chunks (semantics of str.split with an explicit
separator, generalised to a predicate). -/
def splitPred (p : Char → Bool) : List Char → List (List Char)
  | [] => [[]]
  | c :: rest =>
    match splitPred p rest with
    | [] => if p c then [[], []] else [[c]]
    | h :: t => if p c then [] :: h :: t else (c :: h) :: t

/-- Split at one separator character, keeping empty chunks, like the Python
b.split(chr) used by the exponent repair. -/
def splitChar (sep : Char) (l : List Char) : List (List Char) :=
  splitPred (fun c => c = sep) l

/-- Whitespace characters recognised by str.split() and str.strip(). -/
def isWs (c : Char) : Bool :=
  c = ' ' ∨ c = '\n' ∨ c = '\t' ∨ c = '\r'

/-- Python str.split() with no argument: split on whitespace runs and drop
the empty chunks. -/
def pySplitWs (l : List Char) : List (List Char) :=
  (splitPred isWs l).filter (fun w => ¬ w.isEmpty)

/-- Strip leading and trailing whitespace, as float() does on its input. -/
def trimWs (l : List Char) : List Char :=
  (((l.dropWhile isWs).reverse).dropWhile isWs).reverse

/-- Lower-case a character list (str.lower). -/
def toLowerL (l : List Char) : List Char :=
  l.map Char.toLower

/-- Lower-case a string (str.lower). -/
def pyLower (s : String) : String :=
  String.mk (toLowerL s.data)

/-- Replace every occurrence of one character by a replacement string,
the single-character case of str.replace used by read_incar. -/
def replaceCharBy (c : Char) (rep : List Char) (l : List Char) : List Char :=
  l.flatMap (fun d => if d = c then rep else [d])

/-- Replace every occurrence of the two-character pattern minus-e by e-minus,
the final str.replace of the exponent repair in read_convergence. -/
def replaceDashE : List Char → List Char
  | '-' :: 'e' :: rest => 'e' :: '-' :: replaceDashE rest
  | c :: rest => c :: replaceDashE rest
  | [] => []

/-- Digits of a natural number, most significant first, via a fuel bound. -/
def natDigitsAux : ℕ → ℕ → List Char
  | 0, _ => []
  | _ + 1, 0 => []
  | fuel + 1, n => natDigitsAux fuel (n / 10) ++ [Char.ofNat (48 + n % 10)]

/-- Decimal rendering of a natural number, the s conversion of a
nonnegative int in Python percent-formatting. -/
def natToStr (n : ℕ) : String :=
  if n = 0 then "0" else String.mk (natDigitsAux (n + 1) n)

/-- Pad a decimal digit string on the left with zeros up to width k. -/
def padZeros (k : ℕ) (s : String) : String :=
  String.mk (List.replicate (k - s.data.length) '0' ++ s.data)

/-! ### Python float() on numeric tokens

An executable embedding of the float() conversions the driver performs on
OUTCAR and INCAR tokens: optional surrounding whitespace, an optional sign,
a decimal mantissa with an optional fractional part, and an optional
exponent introduced by the letter e in either case. -/

/-- Parse the unsigned mantissa: digits, optionally with one decimal point,
at least one digit present in total. -/
def mantissaOfChars (l : List Char) : Option ℚ :=
  match splitChar '.' l with
  | [ip] => (natOfDigits ip).map (fun n => (n : ℚ))
  | [ip, fp] =>
    if ip.isEmpty ∧ fp.isEmpty then none
    else
      match (if ip.isEmpty then some 0 else natOfDigits ip),
            (if fp.isEmpty then some 0 else natOfDigits fp) with
      | some a, some b => some ((a : ℚ) + (b : ℚ) / (10 : ℚ) ^ fp.length)
      | _, _ => none
  | _ => none

/-- Parse a signed mantissa. -/
def signedMantissa : List Char → Option ℚ
  | '-' :: r => (mantissaOfChars r).map (fun q => -q)
  | '+' :: r => mantissaOfChars r
  | l => mantissaOfChars l

/-- Parse a signed integer exponent. -/
def signedExponent : List Char → Option ℤ
  | '-' :: r => (natOfDigits r).map (fun n => -(n : ℤ))
  | '+' :: r => (natOfDigits r).map (fun n => (n : ℤ))
  | l => (natOfDigits l).map (fun n => (n : ℤ))

/-- Python float() on a finite numeric token, yielding its exact rational
value; fails (models raising ValueError) on malformed tokens. -/
def pyFloatQ (s : String) : Option ℚ :=
  let t := trimWs s.data
  match splitPred (fun c => c = 'e' ∨ c = 'E') t with
  | [m] => signedMantissa m
  | [m, ex] =>
    match signedMantissa m, signedExponent ex with
    | some v, some n => some (v * (10 : ℚ) ^ n)
    | _, _ => none
  | _ => none

/-- Python int() truncation of a float value toward zero. -/
def pyIntTrunc (q : ℚ) : ℤ :=
  if 0 ≤ q then ⌊q⌋ else -⌊-q⌋

/-! ### Fixed-point formatting

The four-decimal fixed-point conversion used for magnetic-moment values in
write_incar. Rounding is to nearest with ties to even, as in the C
formatting Python delegates to. -/

/-- Round to the nearest integer, ties to even. -/
def roundHalfEven (q : ℚ) : ℤ :=
  let f := ⌊q⌋
  let r := q - (f : ℚ)
  if r < 1 / 2 then f
  else if 1 / 2 < r then f + 1
  else if f % 2 = 0 then f else f + 1

/-- Four-decimal fixed-point rendering of a nonnegative rational. -/
def fmtFixed4Pos (q : ℚ) : String :=
  let n := (roundHalfEven (q * 10000)).toNat
  natToStr (n / 10000) ++ "." ++ padZeros 4 (natToStr (n % 10000))

/-- The percent-dot-4-f conversion of write_incar. -/
def fmtFixed4 (q : ℚ) : String :=
  if q < 0 then "-" ++ fmtFixed4Pos (-q) else fmtFixed4Pos q

/-! ### Convergence reading (read_convergence)

The electronic-convergence step test and the exponent-repair logic applied
to the second energy-change token. -/

/-- The exponent repair of read_convergence: if the token has no exponent
marker, split it on the minus signs, prefix the letter e to the last piece,
rejoin with minus, and move each minus that now precedes the marker to just
after it. -/
def fixExponentToken (b : String) : String :=
  if (toLowerL b.data).contains 'e' then b
  else
    let parts := splitChar '-' b.data
    let patched := parts.dropLast ++ ['e' :: (parts.getLast?.getD [])]
    String.mk (replaceDashE (List.intercalate ['-'] patched))

/-- Reading one convergence-delta token: repair the exponent format when the
marker is missing, then convert with float(). -/
def readConvDelta (b : String) : Option ℚ :=
  pyFloatQ (fixExponentToken b)

/-- The per-step electronic convergence test of read_convergence, the
Python list comparison of the absolute deltas against the ediff threshold
repeated twice. -/
def convStepConverged (a b ediff : ℚ) : Bool :=
  pyListLt [|a|, |b|] [ediff, ediff]

/-! ### The parameter registry

The registered parameter names of the eight category dictionaries plus the
input-parameter dictionary, transcribed from the module-level key lists of
vasp.py. -/

/-- Names of the fixed-point real-valued INCAR parameters (float_keys). -/
def floatKeys : List String :=
  ["aexx", "aggac", "aggax", "aldac", "amin", "amix", "amix_mag", "bmix",
   "bmix_mag", "cshift", "deper", "ebreak", "efield", "emax", "emin",
   "enaug", "encut", "encutgw", "encutfock", "hfscreen", "kspacing",
   "potim", "nelect", "param1", "param2", "pomass", "pstress", "sigma",
   "spring", "time", "weimin", "zab_vdw", "zval", "jacobian", "ddr",
   "drotmax", "dfnmin", "dfnmax", "stol", "sdr", "maxmove", "invcurve",
   "timestep", "sdalpha", "ftimemax", "ftimedec", "ftimeinc", "falpha",
   "falphadec", "clz", "vdw_radius", "vdw_scaling", "vdw_d",
   "vdw_cnradius", "vdw_s6", "vdw_s8", "vdw_sr", "vdw_a1", "vdw_a2",
   "eb_k", "tau"]

/-- Names of the scientific-notation real-valued parameters (exp_keys). -/
def expKeys : List String :=
  ["ediff", "ediffg", "symprec", "fdstep"]

/-- Names of the string-valued parameters (string_keys). -/
def stringKeys : List String :=
  ["algo", "gga", "metagga", "prec", "system", "tebeg", "teend",
   "precfock"]

/-- Names of the integer-valued parameters (int_keys). -/
def intKeys : List String :=
  ["ialgo", "ibrion", "icharg", "idipol", "images", "iniwav", "isif",
   "ismear", "ispin", "istart", "isym", "iwavpr", "kpar", "ldauprint",
   "ldautype", "lmaxmix", "lorbit", "maxmix", "ngx", "ngxf", "ngy",
   "ngyf", "ngz", "ngzf", "nbands", "nblk", "nbmod", "nelm", "nelmdl",
   "nelmin", "nfree", "nkred", "nkredx", "nkredy", "nkredz", "nomega",
   "nomegar", "npar", "nsim", "nsw", "nupdown", "nwrite", "smass",
   "vdwgr", "vdwrn", "voskown", "ichain", "iopt", "snl", "lbfgsmem",
   "fnmin", "icorelevel", "clnt", "cln", "cll", "ivdw", "nbandsgw",
   "nbandso", "nbandsv", "ncore", "mdalgo", "nedos", "turbo"]

/-- Names of the boolean parameters (bool_keys); lvdw is listed twice in
the source and the duplicate is kept here. -/
def boolKeys : List String :=
  ["addgrid", "kgamma", "laechg", "lasph", "lasync", "lcharg", "lcorr",
   "ldau", "ldiag", "ldipol", "lelf", "lepsilon", "lhfcalc", "loptics",
   "lpard", "lplane", "lscalapack", "lscalu", "lsepb", "lsepk",
   "lthomas", "luse_vdw", "lvdw", "lvhar", "lvtot", "lwave", "lclimb",
   "ltangentold", "ldneb", "lnebcell", "lglobal", "llineopt", "lbeefens",
   "lbeefbas", "lcalcpol", "lcalceps", "lvdw", "lvdw_ewald", "lspectral",
   "lrpa", "lwannier90", "lsorbit", "lsol", "lautoscale"]

/-- Names of the list-valued parameters (list_keys). -/
def listKeys : List String :=
  ["dipol", "eint", "ferwe", "ferdo", "iband", "magmom", "kpuse", "ropt",
   "rwigs", "ldauu", "ldaul", "ldauj", "random_seed", "vdw_c6",
   "vdw_c6au", "vdw_r0", "vdw_r0au", "vdw_alpha"]

/-- Names of the special polymorphic parameters (special_keys). -/
def specialKeys : List String :=
  ["lreal"]

/-- Names of the dictionary-valued parameters (dict_keys). -/
def dictKeys : List String :=
  ["ldau_luj"]

/-- A parameter dictionary: an association list from parameter name to the
currently set value. -/
def PDict : Type := List (String × PVal)

instance : DecidableEq PDict := inferInstanceAs (DecidableEq (List (String × PVal)))

/-- Python membership test key in dict. -/
def containsKey (d : PDict) (k : String) : Bool :=
  d.any (fun kv => kv.1 = k)

/-- Python dict assignment for a key that is already present: replace its
value, keeping every other entry. -/
def setKey (d : PDict) (k : String) (v : PVal) : PDict :=
  d.map (fun kv => if kv.1 = k then (k, v) else kv)

/-- A dictionary in which every listed key is set to None. -/
def initDict (keys : List String) : PDict :=
  keys.map (fun k => (k, PVal.pnone))

/-- The nine per-category parameter dictionaries held by a Vasp calculator
object. -/
structure ParamState where
  floatP : PDict
  expP : PDict
  stringP : PDict
  intP : PDict
  boolP : PDict
  listP : PDict
  specialP : PDict
  dictP : PDict
  inputP : PDict
  deriving DecidableEq

/-- The dictionaries as they are initialised by the constructor: every
registered key unset, and the fixed non-VASP input parameters with their
defaults. -/
def initialParamState : ParamState where
  floatP := initDict floatKeys
  expP := initDict expKeys
  stringP := initDict stringKeys
  intP := initDict intKeys
  boolP := initDict boolKeys
  listP := initDict listKeys
  specialP := initDict specialKeys
  dictP := initDict dictKeys
  inputP :=
    [("xc", PVal.pnone), ("pp", PVal.pnone), ("setups", PVal.pnone),
     ("txt", PVal.pstr "-"), ("kpts", PVal.pilist [1, 1, 1]),
     ("gamma", PVal.pbool false), ("kpts_nintersections", PVal.pnone),
     ("reciprocal", PVal.pbool false)]

/-- True when the name is registered in some category dictionary of the
state, the membership test performed by the elif chain of set. -/
def paramRegistered (st : ParamState) (k : String) : Bool :=
  containsKey st.floatP k || containsKey st.expP k || containsKey st.stringP k ||
  containsKey st.intP k || containsKey st.boolP k || containsKey st.listP k ||
  containsKey st.specialP k || containsKey st.dictP k || containsKey st.inputP k

/-! ### The set operation and the xc shortcut -/

/-- The xc-defaults lookup table of the Vasp class: each functional
shortcut expands to a bundle of concrete parameter assignments. -/
def xcDefaults : List (String × List (String × PVal)) :=
  [("lda", [("pp", PVal.pstr "LDA")]),
   ("pw91", [("pp", PVal.pstr "GGA"), ("gga", PVal.pstr "91")]),
   ("pbe", [("pp", PVal.pstr "PBE"), ("gga", PVal.pstr "PE")]),
   ("pbesol", [("gga", PVal.pstr "PS")]),
   ("revpbe", [("gga", PVal.pstr "RE")]),
   ("rpbe", [("gga", PVal.pstr "RP")]),
   ("am05", [("gga", PVal.pstr "AM")]),
   ("tpss", [("metagga", PVal.pstr "TPSS")]),
   ("revtpss", [("metagga", PVal.pstr "RTPSS")]),
   ("m06l", [("metagga", PVal.pstr "M06L")]),
   ("vdw-df", [("gga", PVal.pstr "RE"), ("luse_vdw", PVal.pbool true),
               ("aggac", PVal.prat 0)]),
   ("optpbe-vdw", [("gga", PVal.pstr "OR"), ("luse_vdw", PVal.pbool true),
                   ("aggac", PVal.prat 0)]),
   ("optb88-vdw", [("gga", PVal.pstr "BO"), ("luse_vdw", PVal.pbool true),
                   ("aggac", PVal.prat 0), ("param1", PVal.prat (11 / 60)),
                   ("param2", PVal.prat (22 / 100))]),
   ("optb86b-vdw", [("gga", PVal.pstr "MK"), ("luse_vdw", PVal.pbool true),
                    ("aggac", PVal.prat 0), ("param1", PVal.prat (1234 / 10000)),
                    ("param2", PVal.prat 1)]),
   ("vdw-df2", [("gga", PVal.pstr "ML"), ("luse_vdw", PVal.pbool true),
                ("aggac", PVal.prat 0), ("zab_vdw", PVal.prat (-(18867 / 10000)))]),
   ("beef-vdw", [("gga", PVal.pstr "BF"), ("luse_vdw", PVal.pbool true),
                 ("zab_vdw", PVal.prat (-(18867 / 10000)))]),
   ("hf", [("lhfcalc", PVal.pbool true), ("aexx", PVal.prat 1),
           ("aldac", PVal.prat 0), ("aggac", PVal.prat 0)]),
   ("b3lyp", [("gga", PVal.pstr "B3"), ("lhfcalc", PVal.pbool true),
              ("aexx", PVal.prat (20 / 100)), ("aggax", PVal.prat (72 / 100)),
              ("aggac", PVal.prat (81 / 100)), ("aldac", PVal.prat (19 / 100))]),
   ("pbe0", [("gga", PVal.pstr "PE"), ("lhfcalc", PVal.pbool true)]),
   ("hse03", [("gga", PVal.pstr "PE"), ("lhfcalc", PVal.pbool true),
              ("hfscreen", PVal.prat (3 / 10))]),
   ("hse06", [("gga", PVal.pstr "PE"), ("lhfcalc", PVal.pbool true),
              ("hfscreen", PVal.prat (2 / 10))]),
   ("hsesol", [("gga", PVal.pstr "PS"), ("lhfcalc", PVal.pbool true),
               ("hfscreen", PVal.prat (2 / 10))])]

/-- Python value.lower() on a parameter value: succeeds on a string,
raises AttributeError on None or any non-string value. -/
def pyLowerVal : PVal → Except PyErr String
  | PVal.pstr s => Except.ok (pyLower s)
  | _ => Except.error PyErr.attributeError

/-- One step of the elif chain of set for a single keyword: update the one
category dictionary containing the key, or raise the unknown-parameter
TypeError. -/
def setPlainOne (st : ParamState) (k : String) (v : PVal) :
    ParamState × Option PyErr :=
  if containsKey st.floatP k then ({ st with floatP := setKey st.floatP k v }, none)
  else if containsKey st.expP k then ({ st with expP := setKey st.expP k v }, none)
  else if containsKey st.stringP k then ({ st with stringP := setKey st.stringP k v }, none)
  else if containsKey st.intP k then ({ st with intP := setKey st.intP k v }, none)
  else if containsKey st.boolP k then ({ st with boolP := setKey st.boolP k v }, none)
  else if containsKey st.listP k then ({ st with listP := setKey st.listP k v }, none)
  else if containsKey st.specialP k then ({ st with specialP := setKey st.specialP k v }, none)
  else if containsKey st.dictP k then ({ st with dictP := setKey st.dictP k v }, none)
  else if containsKey st.inputP k then ({ st with inputP := setKey st.inputP k v }, none)
  else (st, some (PyErr.typeError ("Parameter not defined: " ++ k)))

/-- The keyword loop of set: keywords are processed in order; an exception
aborts the loop but the updates already performed persist, as attribute
mutation does in Python. -/
def setPlainMany : ParamState → List (String × PVal) → ParamState × Option PyErr
  | st, [] => (st, none)
  | st, (k, v) :: rest =>
    match setPlainOne st k v with
    | (st2, none) => setPlainMany st2 rest
    | (st2, some e) => (st2, some e)

/-- The branch of set_xc_params that executes for a given xc argument. -/
inductive XcBranch where
  | noneBranch : XcBranch
  | applyBranch : XcBranch
  deriving DecidableEq, Repr

/-- Control-flow skeleton of set_xc_params: the lower() call runs first, so
for the value None it raises AttributeError before the is-None test; after
a successful lower() the value is a string, therefore the is-None branch
can never be selected. -/
def setXcBranch (xcv : PVal) : Except PyErr XcBranch :=
  match pyLowerVal xcv with
  | Except.error e => Except.error e
  | Except.ok low =>
    if PVal.pstr low = PVal.pnone then Except.ok XcBranch.noneBranch
    else
      match xcDefaults.lookup low with
      | none => Except.error (PyErr.valueError (low ++ " is not supported for xc!"))
      | some _ => Except.ok XcBranch.applyBranch

/-- The set_xc_params method: lower the argument (raising AttributeError on
None), then either report an unsupported functional or apply the bundle of
the xc-defaults table, defaulting pp to PBE when the bundle leaves it
unset. The inner self.set calls never carry an xc keyword, so they are the
plain keyword loop. -/
def setXcParamsM (st : ParamState) (xcv : PVal) : ParamState × Option PyErr :=
  match pyLowerVal xcv with
  | Except.error e => (st, some e)
  | Except.ok low =>
    if PVal.pstr low = PVal.pnone then (st, none)
    else
      match xcDefaults.lookup low with
      | none => (st, some (PyErr.valueError (low ++ " is not supported for xc!")))
      | some bundle =>
        let pre := if (bundle.lookup "pp").isSome then (st, none)
                   else setPlainMany st [("pp", PVal.pstr "PBE")]
        match pre with
        | (st1, some e) => (st1, some e)
        | (st1, none) => setPlainMany st1 bundle

/-- The set method: if an xc keyword is present, run set_xc_params on it
first, then run the elif chain over all keywords in order. -/
def vaspSet (st : ParamState) (kwargs : List (String × PVal)) :
    ParamState × Option PyErr :=
  match kwargs.lookup "xc" with
  | some xcv =>
    match setXcParamsM st xcv with
    | (st1, some e) => (st1, some e)
    | (st1, none) => setPlainMany st1 kwargs
  | none => setPlainMany st kwargs

/-! ### The structure container and the change gate -/

/-- Modelled from the spec: the structure/atoms container is an external
collaborator of this module (it is not part of the source under
verification), consumed as a value object carrying atom count, per-atom
species symbol, per-atom position, periodic cell, periodicity flags,
per-atom initial magnetic moment and per-atom initial charge. -/
structure AtomsM where
  symbols : List String
  positions : List (ℚ × ℚ × ℚ)
  cell : List (ℚ × ℚ × ℚ)
  pbc : Bool × Bool × Bool
  initialMagmoms : List ℚ
  initialCharges : List ℚ
  deriving DecidableEq

/-- Closeness of two rationals within the tolerance. -/
def closeQ (tol a b : ℚ) : Bool :=
  |a - b| ≤ tol

/-- Componentwise closeness of two coordinate triples. -/
def closeV3 (tol : ℚ) (a b : ℚ × ℚ × ℚ) : Bool :=
  closeQ tol a.1 b.1 && closeQ tol a.2.1 b.2.1 && closeQ tol a.2.2 b.2.2

/-- Elementwise closeness of two lists under a comparison, requiring equal
lengths. -/
def closeList {α : Type} (cmp : α → α → Bool) (xs ys : List α) : Bool :=
  xs.length = ys.length && (xs.zip ys).all (fun p => cmp p.1 p.2)

/-- Modelled from the spec: equality of two structures, attribute by
attribute (positions, species, cell, periodicity, initial moments, initial
charges), numeric attributes within a small tolerance. -/
def atomsEqualTol (tol : ℚ) (a b : AtomsM) : Bool :=
  a.symbols = b.symbols &&
  closeList (closeV3 tol) a.positions b.positions &&
  closeList (closeV3 tol) a.cell b.cell &&
  a.pbc = b.pbc &&
  closeList (closeQ tol) a.initialMagmoms b.initialMagmoms &&
  closeList (closeQ tol) a.initialCharges b.initialCharges

/-- The Python self.atoms != atoms test, where self.atoms may be None. -/
def cachedAtomsDiffer (tol : ℚ) (cached : Option AtomsM) (a : AtomsM) : Bool :=
  match cached with
  | none => true
  | some b => ! atomsEqualTol tol b a

/-- The snapshot dictionaries of the previous run, the old_ attributes
written by set_results: the source snapshots the float, exp, string, int,
bool, list, input and dict categories and nothing else. -/
structure OldParams where
  floatP : PDict
  expP : PDict
  stringP : PDict
  intP : PDict
  boolP : PDict
  listP : PDict
  inputP : PDict
  dictP : PDict
  deriving DecidableEq

/-- The calculator state consulted by calculation_required: the cached
positions and structure, the live parameter dictionaries, their snapshots,
the convergence flag of the previous run, whether a magnetic-moment result
was ever stored (the hasattr test), and the spin-polarisation flag. -/
structure VaspState where
  positions : Option (List (ℚ × ℚ × ℚ))
  atoms : Option AtomsM
  params : ParamState
  old : OldParams
  converged : Option Bool
  hasMagneticMoment : Bool
  spinpol : Bool
  deriving DecidableEq

/-- The change gate calculation_required: recalculation is needed when no
prior positions exist, the cached structure differs from the given one, any
of the eight compared category dictionaries differs from its snapshot, or
the previous run did not converge; a magnetic-moment request additionally
needs one when no magnetic-moment result was ever stored. -/
def calculationRequired (tol : ℚ) (st : VaspState) (a : AtomsM)
    (quantities : List String) : Bool :=
  if st.positions.isNone || cachedAtomsDiffer tol st.atoms a ||
     decide (st.params.floatP ≠ st.old.floatP) ||
     decide (st.params.expP ≠ st.old.expP) ||
     decide (st.params.stringP ≠ st.old.stringP) ||
     decide (st.params.intP ≠ st.old.intP) ||
     decide (st.params.boolP ≠ st.old.boolP) ||
     decide (st.params.listP ≠ st.old.listP) ||
     decide (st.params.inputP ≠ st.old.inputP) ||
     decide (st.params.dictP ≠ st.old.dictP) ||
     ! pyTruthy st.converged then true
  else if quantities.contains "magmom" then ! st.hasMagneticMoment
  else false

/-- The snapshot refresh of set_results at the end of a run: the eight
old_ category dictionaries are overwritten with copies of the live ones
(the special category has no snapshot), a magnetic-moment result is stored
when the calculation is spin polarised, and a copy of the structure is
cached. Storing the positions is modelled from the spec: the read call at
the top of set_results records the positions of the structure (that
base-class method is not part of the source under verification). -/
def setResultsM (st : VaspState) (a : AtomsM) : VaspState :=
  { st with
    positions := some a.positions
    hasMagneticMoment := st.spinpol || st.hasMagneticMoment
    old := { floatP := st.params.floatP, expP := st.params.expP,
             stringP := st.params.stringP, intP := st.params.intP,
             boolP := st.params.boolP, listP := st.params.listP,
             inputP := st.params.inputP, dictP := st.params.dictP }
    atoms := some a }

/-! ### The atom reordering protocol (initialize)

The sort and resort permutations built by initialize from the per-atom
chemical symbols and the explicit special-setup indices taken from the
setups input parameter. -/

/-- One step of the first-seen species collection loop of initialize: a
special-setup index is skipped, otherwise the symbol of the atom is
appended on first encounter. -/
def collectStep (special : List ℕ) (syms : List String)
    (acc : List String) (m : ℕ) : List String :=
  if m ∈ special then acc
  else if syms.getD m "" ∈ acc then acc else acc ++ [syms.getD m ""]

/-- The species list in first-encountered order over the non-special
atoms, the symbols list of initialize. -/
def collectSymbols (syms : List String) (special : List ℕ) : List String :=
  (List.range syms.length).foldl (collectStep special syms) []

/-- The non-special atom indices carrying one species, in index order: the
inner enumeration loop of the sort construction. -/
def symGroup (syms : List String) (special : List ℕ) (s : String) : List ℕ :=
  (List.range syms.length).filter
    (fun m => decide (m ∉ special) && decide (syms.getD m "" = s))

/-- The sort list of initialize: the special-setup indices first, then for
each first-seen species all its non-special atom indices. -/
def buildSort (syms : List String) (special : List ℕ) : List ℕ :=
  special ++ (collectSymbols syms special).flatMap (symGroup syms special)

/-- The resort list of initialize: start from the identity list and write
n at position sort n for every n. -/
def buildResort (sort : List ℕ) : List ℕ :=
  (List.range sort.length).foldl
    (fun acc n => acc.set (sort.getD n 0) n) (List.range sort.length)

/-- The species symbols in sort-order. -/
def sortedSymbols (syms : List String) (special : List ℕ) : List String :=
  (buildSort syms special).map (fun m => syms.getD m "")

/-- Every value occupies one contiguous run: whenever the same value
appears at two positions, it also appears at every position in between. -/
def SpeciesContiguous (l : List String) : Prop :=
  ∀ i j k : ℕ, i ≤ j → j ≤ k →
    ∀ s, l[i]? = some s → l[k]? = some s → l[j]? = some s

/-! ### The magnetic-moment run-length writer of write_incar and the
magmom decoding of read_incar -/

/-- One step of the run-length loop of write_incar: compare the next value
with the value of the last run, incrementing its count on equality and
opening a fresh run otherwise. -/
def rleStep (acc : List (ℕ × ℚ)) (v : ℚ) : List (ℕ × ℚ) :=
  match acc.getLast? with
  | none => [(1, v)]
  | some (c, u) => if v = u then acc.dropLast ++ [(c + 1, u)] else acc ++ [(1, v)]

/-- The run-length compression of write_incar: consecutive equal values
merged into count-value pairs; the source indexes val[0] first, so the
empty list yields no runs. -/
def mergeRuns : List ℚ → List (ℕ × ℚ)
  | [] => []
  | v :: rest => rest.foldl rleStep [(1, v)]

/-- The emitted token of one run, the percent i star percent dot-4-f
conversion. -/
def magmomTokens (vals : List ℚ) : List String :=
  (mergeRuns vals).map (fun cu => natToStr cu.1 ++ "*" ++ fmtFixed4 cu.2)

/-- The full MAGMOM control line as write_incar emits it: the upper-cased
key, the equals sign, each token followed by one space, and a newline. -/
def magmomLine (vals : List ℚ) : String :=
  " MAGMOM = " ++ String.join ((magmomTokens vals).map (fun t => t ++ " ")) ++ "\n"

/-- The token split of read_incar: pad every star, equals sign and hash
with spaces, then split on whitespace. -/
def incarTokens (line : String) : List (List Char) :=
  pySplitWs
    (replaceCharBy '#' ['#', ' ']
      (replaceCharBy '=' [' ', '=', ' ']
        (replaceCharBy '*' [' ', '*', ' '] line.data)))

/-- The magmom while loop of read_incar: a hash or bang token stops, a
star token pops the last value b and appends float(next token) int(b)
times, any other token is appended as a float; popping from an empty list
or a malformed float is an error. -/
def magmomLoop (acc : List ℚ) : List (List Char) → Option (List ℚ)
  | [] => some acc
  | t :: rest =>
    if t = ['#'] ∨ t = ['!'] then some acc
    else if t = ['*'] then
      match acc.getLast?, rest with
      | some b, v :: rest2 =>
        match pyFloatQ (String.mk v) with
        | some x => magmomLoop (acc.dropLast ++ List.replicate (pyIntTrunc b).toNat x) rest2
        | none => none
      | _, _ => none
    else
      match pyFloatQ (String.mk t) with
      | some x => magmomLoop (acc ++ [x]) rest
      | none => none

/-- The magmom decoding of one INCAR line by read_incar: tokenize, check
the key, and run the magmom loop on the tokens after the equals sign. -/
def readIncarMagmomLine (line : String) : Option (List ℚ) :=
  match incarTokens line with
  | [] => none
  | key :: _ =>
    if toLowerL key = "magmom".data then magmomLoop [] ((incarTokens line).drop 2)
    else none

/-! ### The volumetric charge-density codec (VaspChargeDensity)

The density file is modelled as a flat stream of tokens with explicit
newline tokens, so that the line framing the source controls is kept: the
writer emits the main grid-dimensions line with a terminating newline but
the spin-difference dimensions without one, and the reader works with
readline, tell and seek over that framing, recognising a spin block only
when a whole line splits to exactly the dimension tokens.

The grid values of one frame are the flat list of numbers in file order;
the Fortran-order filling used by the reader is the exact inverse of the
transpose-and-ravel flattening used by the writer, so the same flat order
serves both directions. Number tokens keep their values: a token printed
with the integer conversion consists of plain digits, while a token
printed with the float conversion of _write_chg always carries a decimal
point or an exponent letter, so the two rendering families are disjoint
and each is injective on values; the token constructors below mirror
exactly that. -/

/-- The structure block heading one density frame, reduced to the one
quantity the codec uses: the cell volume. -/
structure AtomsVol where
  volume : ℚ
  deriving DecidableEq

/-- A grid: its three dimensions and its flat value list. -/
structure GridM where
  dims : ℕ × ℕ × ℕ
  vals : List ℚ
  deriving DecidableEq

/-- The in-memory state of VaspChargeDensity: parallel lists of structures
and charge grids, the spin-difference grids (empty when not spin
polarised). -/
structure VaspChargeDensityM where
  atomsList : List AtomsVol
  chg : List GridM
  chgdiff : List GridM
  deriving DecidableEq

/-- The is_spin_polarized test: a nonempty chgdiff list. -/
def spinPolarized (st : VaspChargeDensityM) : Bool :=
  st.chgdiff.length > 0

/-- One token of a density file. nl is a newline; intTok is a token
printed with the integer conversion of the dimension lines (plain digits
once split); value is a grid number printed by _write_chg (always with a
decimal point or exponent letter, so never equal to an integer token);
structTok stands for the whole structure block emitted by the external
write_vasp; word is any other text token (augmentation blocks). -/
inductive ChgTok where
  | nl : ChgTok
  | intTok : ℕ → ChgTok
  | value : ℚ → ChgTok
  | structTok : AtomsVol → ChgTok
  | word : String → ChgTok
  deriving DecidableEq

/-- Drop a run of newline tokens. -/
def skipNl : List ChgTok → List ChgTok
  | ChgTok.nl :: r => skipNl r
  | s => s

/-- The readline of the file object over the token stream: the tokens of
the current line and the rest of the stream; none models the empty string
returned at end of file. -/
def readline : List ChgTok → Option (List ChgTok × List ChgTok)
  | [] => none
  | ChgTok.nl :: rest => some ([], rest)
  | t :: rest =>
    match readline rest with
    | none => some ([t], [])
    | some (line, rest2) => some (t :: line, rest2)

/-- Reading one token as a float, as np.fromfile does: integer and float
renderings parse to their values, other text through float(); a structure
block is not a number run. -/
def fromfileTok : ChgTok → Option ℚ
  | ChgTok.intTok n => some ((n : ℕ) : ℚ)
  | ChgTok.value q => some q
  | ChgTok.word s => pyFloatQ s
  | _ => none

/-- Modelled from the spec: np.fromfile (external) reads count
whitespace-separated numbers across line boundaries; the model takes it to
leave the stream on the first token after the whitespace run following the
last number, the reading under which the multi-frame layout of the spec is
re-readable. A missing or unparseable number fails (the short array raises
on assignment in _read_chg). -/
def fromfileN : ℕ → List ChgTok → Option (List ℚ × List ChgTok)
  | 0, s => some ([], skipNl s)
  | _ + 1, [] => none
  | n + 1, ChgTok.nl :: rest => fromfileN (n + 1) rest
  | n + 1, t :: rest =>
    match fromfileTok t with
    | some q => (fromfileN n rest).map (fun p => (q :: p.1, p.2))
    | none => none

/-- Python int() on one split token: integer renderings and all-digit
words succeed, float renderings and anything else raise. -/
def tokInt : ChgTok → Option ℕ
  | ChgTok.intTok n => some n
  | ChgTok.word s => if s.data ≠ [] ∧ s.data.all Char.isDigit
                     then natOfDigits s.data else none
  | _ => none

/-- The dimension parse of read: int of the first three split tokens of
the line; fewer than three tokens or a non-integer token raises. -/
def parseDims (line : List ChgTok) : Option (ℕ × ℕ × ℕ) :=
  match line with
  | t1 :: t2 :: t3 :: _ =>
    match tokInt t1, tokInt t2, tokInt t3 with
    | some n1, some n2, some n3 => some (n1, n2, n3)
    | _, _, _ => none
  | _ => none

/-- The three dimension tokens written with the integer conversion. -/
def dimsToks (d : ℕ × ℕ × ℕ) : List ChgTok :=
  [ChgTok.intTok d.1, ChgTok.intTok d.2.1, ChgTok.intTok d.2.2]

/-- The data layout of _write_chg: full rows of ten values each followed
by a newline, the last row written without one, then one final newline
whatever the format. The source raises on an empty grid; grids here are
nonempty by hypothesis, where the model coincides. -/
def dataRows (vals : List ℚ) : List ChgTok :=
  if vals.length ≤ 10 then vals.map ChgTok.value ++ [ChgTok.nl]
  else (vals.take 10).map ChgTok.value ++ ChgTok.nl :: dataRows (vals.drop 10)
termination_by vals.length
decreasing_by simp; omega

/-- One frame as the write method emits it in the chg format: the
structure block of write_vasp (spec-modelled as one opaque block token
ending in a newline), the extra newline written after it, the dimension
line with its newline, the grid data multiplied by the cell volume, then,
when spin polarised, a blank line followed by the dimension tokens written
with no newline so that they merge with the first spin data row, and the
spin grid data; finally the frame-separating blank line of multi-frame
files. -/
def frameToks (multi : Bool) (a : AtomsVol) (g : GridM) (spin : Option GridM) :
    List ChgTok :=
  ChgTok.structTok a :: ChgTok.nl ::
  ChgTok.nl ::
  (dimsToks g.dims ++ ChgTok.nl ::
   dataRows (g.vals.map (fun x => x * a.volume)) ++
   (match spin with
    | none => []
    | some d =>
        ChgTok.nl ::
        (dimsToks g.dims ++
         dataRows (d.vals.map (fun x => x * a.volume)))) ++
   (if multi then [ChgTok.nl] else []))

/-- The frame loop of write in the chg format: one frame per charge grid,
with the spin-difference grid of the same index written inside the frame
when present; a missing structure or spin grid for a frame index is an
index error. -/
def writeChgGo (multi : Bool) :
    List GridM → List AtomsVol → Option (List GridM) → Option (List ChgTok)
  | [], _, _ => some []
  | g :: gs, a :: as, none =>
    (writeChgGo multi gs as none).map (fun r => frameToks multi a g none ++ r)
  | g :: gs, a :: as, some (d :: ds) =>
    (writeChgGo multi gs as (some ds)).map (fun r => frameToks multi a g (some d) ++ r)
  | _ :: _, [], _ => none
  | _ :: _, _ :: _, some [] => none

/-- The write method in the chg format: every frame is written, with the
spin channel exactly when the state is spin polarised, and with the
frame-separating blank line exactly when there is more than one frame. -/
def writeVCDChg (st : VaspChargeDensityM) : Option (List ChgTok) :=
  writeChgGo (decide (1 < st.chg.length)) st.chg st.atomsList
    (if spinPolarized st then some st.chgdiff else none)

/-- The augmentation-marker test of read on one token of the peeked
line. -/
def isAugTok : ChgTok → Bool
  | ChgTok.word s => decide ("augmentation".data <:+: s.data)
  | _ => false

/-- Modelled from the spec: read_vasp (external) parses exactly the
structure block that write_vasp emitted; on any other content it fails,
which read treats as end of stream. -/
def readStructBlock : List ChgTok → Option (AtomsVol × List ChgTok)
  | ChgTok.structTok a :: ChgTok.nl :: rest => some (a, rest)
  | _ => none

/-- The inner while loop of the augmentation branch of read: lines are
consumed (collected as augmentation text, not kept by this model) until a
line splits to exactly the dimension tokens, when a spin-difference grid
is read, or until end of file, which also ends the outer loop since the
structure parse at end of file fails. -/
def augLoop (N : ℕ) (vol : ℚ) (dims : ℕ × ℕ × ℕ) (ngrLine : List ChgTok) :
    ℕ → List ChgTok → VaspChargeDensityM → Option VaspChargeDensityM
  | 0, _, st => some st
  | fuel + 1, stream, st =>
    match readline stream with
    | none => some st
    | some (line2, s2) =>
      if line2 = ngrLine then
        match fromfileN N s2 with
        | none => none
        | some (dvals, s3) =>
          augLoop N vol dims ngrLine fuel s3
            { st with chgdiff := st.chgdiff ++ [⟨dims, dvals.map (fun x => x / vol)⟩] }
      else augLoop N vol dims ngrLine fuel s2 st

/-- The while loop of read: parse a structure block (failure ends the
stream), consume the line after it, split the dimension line and convert
its first three tokens, read the grid dividing by the cell volume, then
remember the position, peek one line and either handle an augmentation
block, read a spin-difference grid when the line splits to exactly the
dimension tokens, or seek back and try the next frame. The fuel argument
only bounds the recursion and exceeds the iteration count on every input
considered; none models an uncaught exception. -/
def readVCDLoop : ℕ → List ChgTok → VaspChargeDensityM → Option VaspChargeDensityM
  | 0, _, st => some st
  | fuel + 1, stream, st =>
    match readStructBlock stream with
    | none => some st
    | some (a, s1) =>
      match readline s1 with
      | none => none
      | some (_, s2) =>
        match readline s2 with
        | none => none
        | some (ngrLine, s3) =>
          match parseDims ngrLine with
          | none => none
          | some d =>
            match fromfileN (d.1 * d.2.1 * d.2.2) s3 with
            | none => none
            | some (vals, s4) =>
              let st2 : VaspChargeDensityM :=
                { st with
                  atomsList := st.atomsList ++ [a],
                  chg := st.chg ++ [⟨d, vals.map (fun x => x / a.volume)⟩] }
              match readline s4 with
              | none => some st2
              | some (line1, s5) =>
                if line1.any isAugTok then
                  augLoop (d.1 * d.2.1 * d.2.2) a.volume d ngrLine fuel s5 st2
                else if line1 = ngrLine then
                  match fromfileN (d.1 * d.2.1 * d.2.2) s5 with
                  | none => none
                  | some (dvals, s6) =>
                    readVCDLoop fuel s6
                      { st2 with
                        chgdiff := st2.chgdiff ++ [⟨d, dvals.map (fun x => x / a.volume)⟩] }
                else readVCDLoop fuel s4 st2

/-- The read method on a token stream, starting from the empty state. -/
def readVCDChg (stream : List ChgTok) : Option VaspChargeDensityM :=
  readVCDLoop (stream.length + 1) stream ⟨[], [], []⟩

/-- A one-frame spin-polarised density state used for the concrete
round-trip runs. -/
def chgStC4 : VaspChargeDensityM where
  atomsList := [⟨2⟩]
  chg := [⟨(2, 1, 1), [1/2, 3]⟩]
  chgdiff := [⟨(2, 1, 1), [1, 2]⟩]

/-! ### Property accessors returning not-implemented signals -/

/-- The stress tensor type: the six-component vector produced by
read_stress. -/
def StressT : Type := List ℚ

/-- The tail of get_stress after the update call: a stored stress is
returned, a missing one raises PropertyNotImplementedError. -/
def getStress (stress : Option StressT) : Except PyErr StressT :=
  match stress with
  | none => Except.error PyErr.propertyNotImplementedError
  | some s => Except.ok s

/-- Truthiness of the rwigs list parameter: None and the empty list are
falsy. -/
def rwigsTruthy : Option (List ℚ) → Bool
  | some (_ :: _) => true
  | _ => false

/-- The get_magnetic_moments accessor: when orbital projection was
requested (lorbit at least 10, or a truthy rwigs) the stored per-atom
moments are returned, otherwise the accessor returns the None sentinel; no
branch raises. -/
def getMagneticMoments (lorbit : Option ℤ) (rwigs : Option (List ℚ))
    (moments : Option (List ℚ)) : Option (List ℚ) :=
  if (match lorbit with | some l => decide (10 ≤ l) | none => false) ||
     rwigsTruthy rwigs then moments
  else none

/-! ### Process invocation (run) -/

/-- The two environment sources consulted by run. -/
structure VaspEnv where
  vaspCommand : Option String
  vaspScript : Option String
  deriving DecidableEq

/-- What run launches: the shell command of VASP_COMMAND with its output
redirection, or the launcher script of VASP_SCRIPT executed with a local
namespace. -/
inductive RunAction where
  | shellCommand : String → String → RunAction
  | launcherScript : String → RunAction
  deriving DecidableEq, Repr

/-- The environment resolution of run: VASP_COMMAND is consulted first and
wins when both variables are present; with neither present run raises a
RuntimeError naming both variables, and no process is launched. -/
def runResolve (env : VaspEnv) (out : String) : Except PyErr RunAction :=
  match env.vaspCommand with
  | some cmd => Except.ok (RunAction.shellCommand cmd out)
  | none =>
    match env.vaspScript with
    | some script => Except.ok (RunAction.launcherScript script)
    | none =>
      Except.error (PyErr.runtimeError
        ("Please set either VASP_COMMAND" ++ " or VASP_SCRIPT environment variable"))

/-! ### Concrete instances used by the change-gate runs -/

/-- A one-atom hydrogen structure used for the concrete change-gate runs. -/
def atomsC1 : AtomsM where
  symbols := ["H"]
  positions := [(0, 0, 0)]
  cell := [(1, 0, 0), (0, 1, 0), (0, 0, 1)]
  pbc := (true, true, true)
  initialMagmoms := [0]
  initialCharges := [0]

/-- A fresh calculator state before any run, with its convergence flag set
as a successful run leaves it. -/
def stateC1 : VaspState where
  positions := none
  atoms := none
  params := initialParamState
  old := { floatP := [], expP := [], stringP := [], intP := [],
           boolP := [], listP := [], inputP := [], dictP := [] }
  converged := some true
  hasMagneticMoment := false
  spinpol := false

/-- The state after a successful run with the special-category parameter
changed afterwards: the lreal parameter differs from its value at run
time, a change that has no snapshot to be compared against. -/
def stateC1changed : VaspState :=
  let st := setResultsM stateC1 atomsC1
  { st with params := { st.params with specialP := [("lreal", PVal.pbool true)] } }

/-! ## Helper lemmas -/

theorem zip_self_map {α : Type} (l : List α) : l.zip l = l.map (fun x => (x, x)) := by
  induction l with
  | nil => rfl
  | cons x xs ih => simp [ih]

theorem closeList_refl {α : Type} (cmp : α → α → Bool)
    (h : ∀ x : α, cmp x x = true) (l : List α) : closeList cmp l l = true := by
  simp only [closeList, zip_self_map, Bool.and_eq_true, decide_eq_true_eq,
    List.all_eq_true, List.mem_map]
  exact ⟨trivial, by rintro p ⟨x, -, rfl⟩; exact h x⟩

theorem closeQ_refl (tol : ℚ) (htol : 0 ≤ tol) (x : ℚ) : closeQ tol x x = true := by
  simp only [closeQ, sub_self, abs_zero, decide_eq_true_eq]
  exact htol

theorem closeV3_refl (tol : ℚ) (htol : 0 ≤ tol) (x : ℚ × ℚ × ℚ) :
    closeV3 tol x x = true := by
  simp [closeV3, closeQ_refl tol htol]

theorem atomsEqualTol_refl (tol : ℚ) (htol : 0 ≤ tol) (a : AtomsM) :
    atomsEqualTol tol a a = true := by
  simp [atomsEqualTol, closeList_refl _ (closeV3_refl tol htol),
    closeList_refl _ (closeQ_refl tol htol)]

section ReorderLemmas

variable (special : List ℕ) (syms : List String)

theorem collect_foldl_nodup :
    ∀ (l : List ℕ) (acc : List String), acc.Nodup →
      (l.foldl (collectStep special syms) acc).Nodup := by
  intro l
  induction l with
  | nil => intro acc h; exact h
  | cons x xs ih =>
    intro acc h
    apply ih
    unfold collectStep
    split_ifs with h1 h2
    · exact h
    · exact h
    · refine List.Nodup.append h (List.nodup_singleton _) ?_
      intro a ha hs
      rw [List.mem_singleton.mp hs] at ha
      exact h2 ha

theorem collect_foldl_mem_mono :
    ∀ (l : List ℕ) (acc : List String) (s : String), s ∈ acc →
      s ∈ l.foldl (collectStep special syms) acc := by
  intro l
  induction l with
  | nil => intro acc s h; exact h
  | cons x xs ih =>
    intro acc s h
    apply ih
    unfold collectStep
    split_ifs with h1 h2
    · exact h
    · exact h
    · exact List.mem_append_left _ h

theorem collect_foldl_mem :
    ∀ (l : List ℕ) (acc : List String) (m : ℕ), m ∈ l → m ∉ special →
      syms.getD m "" ∈ l.foldl (collectStep special syms) acc := by
  intro l
  induction l with
  | nil => intro acc m h; exact absurd h (List.not_mem_nil m)
  | cons x xs ih =>
    intro acc m hm hsp
    rw [List.foldl_cons]
    rcases List.mem_cons.mp hm with rfl | hxs
    · apply collect_foldl_mem_mono
      by_cases h1 : m ∈ special
      · exact absurd h1 hsp
      · by_cases h2 : syms.getD m "" ∈ acc
        · simp only [collectStep, if_neg h1, if_pos h2]
          exact h2
        · simp only [collectStep, if_neg h1, if_neg h2]
          exact List.mem_append_right _ (List.mem_singleton_self _)
    · exact ih _ m hxs hsp

theorem collectSymbols_nodup : (collectSymbols syms special).Nodup :=
  collect_foldl_nodup special syms _ [] List.nodup_nil

theorem collectSymbols_mem {m : ℕ} (hm : m < syms.length) (hsp : m ∉ special) :
    syms.getD m "" ∈ collectSymbols syms special :=
  collect_foldl_mem special syms _ [] m (List.mem_range.mpr hm) hsp

theorem mem_symGroup {s : String} {m : ℕ} :
    m ∈ symGroup syms special s ↔
      m < syms.length ∧ m ∉ special ∧ syms.getD m "" = s := by
  simp [symGroup, List.mem_filter, List.mem_range, and_assoc]

theorem symGroup_nodup (s : String) : (symGroup syms special s).Nodup :=
  (List.nodup_range _).filter _

theorem mem_buildSort {m : ℕ} :
    m ∈ buildSort syms special ↔
      (m ∈ special ∨ (m < syms.length ∧ m ∉ special)) := by
  rw [buildSort, List.mem_append]
  constructor
  · rintro (h | h)
    · exact Or.inl h
    · rcases List.mem_flatMap.mp h with ⟨s, -, hg⟩
      rcases (mem_symGroup special syms).mp hg with ⟨h1, h2, -⟩
      exact Or.inr ⟨h1, h2⟩
  · rintro (h | ⟨h1, h2⟩)
    · exact Or.inl h
    · refine Or.inr (List.mem_flatMap.mpr ⟨syms.getD m "", ?_, ?_⟩)
      · exact collectSymbols_mem special syms h1 h2
      · exact (mem_symGroup special syms).mpr ⟨h1, h2, rfl⟩

theorem buildSort_nodup (hnd : special.Nodup) : (buildSort syms special).Nodup := by
  rw [buildSort, List.nodup_append]
  refine ⟨hnd, ?_, ?_⟩
  · rw [List.nodup_flatMap]
    refine ⟨fun s _ => symGroup_nodup special syms s, ?_⟩
    have hn := collectSymbols_nodup special syms
    refine List.Pairwise.imp_of_mem ?_ hn
    intro s t hs ht hne m hms hmt
    rcases (mem_symGroup special syms).mp hms with ⟨-, -, h1⟩
    rcases (mem_symGroup special syms).mp hmt with ⟨-, -, h2⟩
    exact hne (h1 ▸ h2 ▸ rfl)
  · intro a ha hflat
    rcases List.mem_flatMap.mp hflat with ⟨s, -, hg⟩
    rcases (mem_symGroup special syms).mp hg with ⟨-, h2, -⟩
    exact h2 ha

theorem buildSort_bounded (hb : ∀ x ∈ special, x < syms.length) :
    ∀ x ∈ buildSort syms special, x < syms.length := by
  intro x hx
  rcases (mem_buildSort special syms).mp hx with h | ⟨h, -⟩
  · exact hb x h
  · exact h

theorem buildSort_length (hb : ∀ x ∈ special, x < syms.length)
    (hnd : special.Nodup) :
    (buildSort syms special).length = syms.length := by
  have hperm : (buildSort syms special).Perm (List.range syms.length) := by
    rw [List.perm_ext_iff_of_nodup (buildSort_nodup special syms hnd)
      (List.nodup_range _)]
    intro a
    rw [mem_buildSort, List.mem_range]
    constructor
    · rintro (h | ⟨h, -⟩)
      · exact hb a h
      · exact h
    · intro h
      by_cases hs : a ∈ special
      · exact Or.inl hs
      · exact Or.inr ⟨h, hs⟩
  simpa using hperm.length_eq

end ReorderLemmas

theorem resort_fold_invariant (sort : List ℕ) (hnd : sort.Nodup)
    (hlt : ∀ x ∈ sort, x < sort.length) :
    ∀ k, k ≤ sort.length →
      ((List.range k).foldl (fun acc n => acc.set (sort.getD n 0) n)
          (List.range sort.length)).length = sort.length ∧
      ∀ i, i < k →
        ((List.range k).foldl (fun acc n => acc.set (sort.getD n 0) n)
            (List.range sort.length))[sort.getD i 0]? = some i := by
  intro k
  induction k with
  | zero =>
    intro _
    refine ⟨by simp, ?_⟩
    intro i hi
    exact absurd hi (Nat.not_lt_zero i)
  | succ k ih =>
    intro hk
    obtain ⟨ihlen, ihget⟩ := ih (Nat.le_of_succ_le hk)
    rw [List.range_succ, List.foldl_append, List.foldl_cons, List.foldl_nil]
    have hkl : k < sort.length := hk
    have hmem : sort.getD k 0 ∈ sort := by
      rw [List.getD_eq_getElem sort 0 hkl]
      exact List.getElem_mem hkl
    have hpos : sort.getD k 0 < sort.length := hlt _ hmem
    refine ⟨by rw [List.length_set]; exact ihlen, ?_⟩
    intro i hi
    rcases Nat.lt_succ_iff_lt_or_eq.mp hi with hik | rfl
    · have hil : i < sort.length := lt_trans hik hkl
      have hne : sort.getD k 0 ≠ sort.getD i 0 := by
        intro heq
        rw [List.getD_eq_getElem sort 0 hkl, List.getD_eq_getElem sort 0 hil] at heq
        exact absurd ((hnd.getElem_inj_iff).mp heq) (Nat.ne_of_gt hik)
      rw [List.getElem?_set_ne hne]
      exact ihget i hik
    · rw [List.getElem?_set_self (by rw [ihlen]; exact hpos)]

theorem buildResort_inverse (sort : List ℕ) (hnd : sort.Nodup)
    (hlt : ∀ x ∈ sort, x < sort.length) :
    ∀ i, i < sort.length → (buildResort sort)[sort.getD i 0]? = some i := by
  intro i hi
  exact (resort_fold_invariant sort hnd hlt sort.length le_rfl).2 i hi

theorem blocks_contiguous :
    ∀ (keys : List String), keys.Nodup → ∀ cnt : String → ℕ,
      SpeciesContiguous (keys.flatMap (fun s => List.replicate (cnt s) s)) := by
  intro keys
  induction keys with
  | nil =>
    intro _ cnt i j k hij hjk s hi hk
    simp at hi
  | cons t ks ih =>
    intro hnd cnt i j k hij hjk s hi hk
    have hx : (t :: ks).flatMap (fun s => List.replicate (cnt s) s) =
        List.replicate (cnt t) t ++ ks.flatMap (fun s => List.replicate (cnt s) s) := by
      simp [List.flatMap_cons]
    rw [hx] at hi hk ⊢
    have hlen : (List.replicate (cnt t) t).length = cnt t := List.length_replicate ..
    by_cases hkc : k < cnt t
    · have hic : i < cnt t := lt_of_le_of_lt (le_trans hij hjk) hkc
      have hjc : j < cnt t := lt_of_le_of_lt hjk hkc
      rw [List.getElem?_append_left (by rw [hlen]; exact hic),
        List.getElem?_replicate, if_pos hic] at hi
      rw [List.getElem?_append_left (by rw [hlen]; exact hjc),
        List.getElem?_replicate, if_pos hjc]
      exact hi
    · push_neg at hkc
      rw [List.getElem?_append_right (by rw [hlen]; exact hkc), hlen] at hk
      have hsks : s ∈ ks := by
        have hmem := List.getElem?_mem hk
        rcases List.mem_flatMap.mp hmem with ⟨u, hu, hrep⟩
        rw [List.eq_of_mem_replicate hrep]
        exact hu
      have hst : s ≠ t := by
        intro h
        exact (List.nodup_cons.mp hnd).1 (h ▸ hsks)
      by_cases hic : i < cnt t
      · rw [List.getElem?_append_left (by rw [hlen]; exact hic),
          List.getElem?_replicate, if_pos hic] at hi
        exact absurd (Option.some_inj.mp hi) hst.symm
      · push_neg at hic
        have hjc : cnt t ≤ j := le_trans hic hij
        rw [List.getElem?_append_right (by rw [hlen]; exact hic), hlen] at hi
        rw [List.getElem?_append_right (by rw [hlen]; exact hjc), hlen]
        exact ih (List.nodup_cons.mp hnd).2 cnt (i - cnt t) (j - cnt t) (k - cnt t)
          (Nat.sub_le_sub_right hij _) (Nat.sub_le_sub_right hjk _) s hi hk

theorem symGroup_map_getD (syms : List String) (special : List ℕ) (s : String) :
    (symGroup syms special s).map (fun m => syms.getD m "") =
      List.replicate (symGroup syms special s).length s := by
  have hall : ∀ b ∈ (symGroup syms special s).map (fun m => syms.getD m ""), b = s := by
    rintro b hb
    rcases List.mem_map.mp hb with ⟨m, hm, rfl⟩
    exact ((mem_symGroup special syms).mp hm).2.2
  have := List.eq_replicate_of_mem hall
  rwa [List.length_map] at this

theorem sortedSymbols_suffix (syms : List String) (special : List ℕ) :
    ((buildSort syms special).drop special.length).map (fun m => syms.getD m "") =
      (collectSymbols syms special).flatMap
        (fun s => List.replicate ((symGroup syms special s).length) s) := by
  rw [buildSort, List.drop_left, List.map_flatMap]
  exact congrArg _ (funext (fun s => symGroup_map_getD syms special s))

theorem map_scale_unscale (v : ℚ) (hv : v ≠ 0) (l : List ℚ) :
    (l.map (fun x => x * v)).map (fun x => x / v) = l := by
  rw [List.map_map]
  have hpt : ∀ x ∈ l, (fun x => x / v) ((fun x => x * v) x) = x := by
    intro x _
    simp only [Function.comp]
    exact mul_div_cancel_right₀ x hv
  calc (l.map ((fun x => x / v) ∘ (fun x => x * v))) = l.map id := by
        apply List.map_congr_left
        intro x hx
        exact hpt x hx
    _ = l := List.map_id l

/-! ## Claim theorems -/

/-- Claim C1, corrected: the change gate returns true exactly when no
prior run exists, the cached structure differs from the given one, one of
the eight compared parameter categories (fixed-point real, scientific
real, string, integer, boolean, list, input, dictionary) differs from its
snapshot, the prior run did not converge, or a magnetic-moment request
finds no stored magnetic-moment result; the special-parameter category is
not compared. Immediately after a successful run the gate returns false
for the same structure and parameters, provided a magnetic-moment request
is only made when a magnetic-moment result is stored. -/
theorem calculationRequired_C1 (tol : ℚ) (htol : 0 ≤ tol) :
    (∀ (st : VaspState) (a : AtomsM) (qs : List String),
      calculationRequired tol st a qs = true ↔
        (st.positions = none ∨ cachedAtomsDiffer tol st.atoms a = true ∨
         st.params.floatP ≠ st.old.floatP ∨ st.params.expP ≠ st.old.expP ∨
         st.params.stringP ≠ st.old.stringP ∨ st.params.intP ≠ st.old.intP ∨
         st.params.boolP ≠ st.old.boolP ∨ st.params.listP ≠ st.old.listP ∨
         st.params.inputP ≠ st.old.inputP ∨ st.params.dictP ≠ st.old.dictP ∨
         pyTruthy st.converged = false ∨
         (qs.contains "magmom" = true ∧ st.hasMagneticMoment = false))) ∧
    (∀ (st : VaspState) (a : AtomsM) (qs : List String),
      st.converged = some true →
      (qs.contains "magmom" = true → (st.spinpol || st.hasMagneticMoment) = true) →
      calculationRequired tol (setResultsM st a) a qs = false) := by
  constructor
  · intro st a qs
    simp only [calculationRequired, Bool.or_eq_true, decide_eq_true_eq,
      Option.isNone_iff_eq_none, Bool.not_eq_true']
    split_ifs with h1 h2
    · exact iff_of_true rfl (by tauto)
    · rw [Bool.not_eq_true']
      constructor
      · intro hmm
        exact Or.inr (Or.inr (Or.inr (Or.inr (Or.inr (Or.inr (Or.inr (Or.inr
          (Or.inr (Or.inr (Or.inr ⟨h2, hmm⟩))))))))))
      · intro hrhs
        rcases hrhs with h | h | h | h | h | h | h | h | h | h | h | ⟨-, h⟩ <;> tauto
    · refine iff_of_false (by simp) ?_
      intro hrhs
      rcases hrhs with h | h | h | h | h | h | h | h | h | h | h | ⟨hc, -⟩ <;> tauto
  · intro st a qs hconv hmm
    have hae : atomsEqualTol tol a a = true := atomsEqualTol_refl tol htol a
    simp [calculationRequired, setResultsM, cachedAtomsDiffer, hae, pyTruthy, hconv]
    intro hm hsp
    have h2 := hmm (by simpa using hm)
    simpa [hsp] using h2

/-- Claim C1, counterexample to the claim as stated: after a successful
run the special-category parameter lreal is changed, so a parameter
category differs from its run-time value, yet calculation_required still
returns false, because the special category has no snapshot and is never
compared. -/
theorem calculationRequired_C1_cex :
    calculationRequired 0 stateC1changed atomsC1 ["energy"] = false ∧
    stateC1changed.params.specialP ≠ (setResultsM stateC1 atomsC1).params.specialP := by
  constructor
  · have hae : atomsEqualTol 0 atomsC1 atomsC1 = true :=
      atomsEqualTol_refl 0 le_rfl atomsC1
    simp [calculationRequired, stateC1changed, setResultsM, cachedAtomsDiffer,
      pyTruthy, stateC1, hae]
  · decide

/-- Claim C1, witness: the amended theorem applied to the concrete state
right after a successful run on the hydrogen structure. -/
theorem calculationRequired_C1_witness :
    calculationRequired 0 (setResultsM stateC1 atomsC1) atomsC1 ["energy"] = false :=
  (calculationRequired_C1 0 le_rfl).2 stateC1 atomsC1 ["energy"] (by rfl) (by decide)

/-- Claim C2, corrected: for valid distinct special-setup indices the
sort permutation satisfies resort[sort[i]] = i for every atom index, the
special-setup indices come first in their original relative order, and
the species are contiguous in the part of the sort order after the
special prefix (hence everywhere when no special setups are given). -/
theorem buildSort_resort_C2 (syms : List String) (special : List ℕ)
    (hb : ∀ x ∈ special, x < syms.length) (hnd : special.Nodup) :
    (∀ i, i < (buildSort syms special).length →
        (buildResort (buildSort syms special))[(buildSort syms special).getD i 0]? =
          some i) ∧
    (buildSort syms special).take special.length = special ∧
    SpeciesContiguous
      (((buildSort syms special).drop special.length).map (fun m => syms.getD m "")) := by
  refine ⟨?_, ?_, ?_⟩
  · apply buildResort_inverse _ (buildSort_nodup special syms hnd)
    intro x hx
    rw [buildSort_length special syms hb hnd]
    exact buildSort_bounded special syms hb x hx
  · rw [buildSort, List.take_left]
  · rw [sortedSymbols_suffix]
    exact blocks_contiguous _ (collectSymbols_nodup special syms) _

/-- Claim C2, witness: the amended theorem applied to an oxygen-hydrogen
structure with the middle atom pinned by a special setup. -/
theorem buildSort_resort_C2_witness :
    (∀ i, i < (buildSort ["O", "H", "H"] [1]).length →
        (buildResort (buildSort ["O", "H", "H"] [1]))[(buildSort ["O", "H", "H"] [1]).getD i 0]? =
          some i) ∧
    (buildSort ["O", "H", "H"] [1]).take 1 = [1] ∧
    SpeciesContiguous
      (((buildSort ["O", "H", "H"] [1]).drop 1).map (fun m => ["O", "H", "H"].getD m "")) :=
  buildSort_resort_C2 ["O", "H", "H"] [1] (by decide) (by decide)

/-- Claim C2, counterexample to the claim as stated: with atoms O, H, H
and atom 1 pinned by a special setup, the sort order is 1, 0, 2, whose
species sequence H, O, H does not keep species H in one contiguous run. -/
theorem buildSort_contiguity_C2_cex :
    ¬ SpeciesContiguous (sortedSymbols ["O", "H", "H"] [1]) := by
  intro h
  have h2 := h 0 1 2 (by omega) (by omega) "H" (by decide) (by decide)
  exact absurd h2 (by decide)

/-- Claim C3, confirmed: the INCAR writer encodes the magnetic-moment
list 1, 1, 1, 2 as the token sequence 3*1.0000 1*2.0000, and the INCAR
reader decodes the written MAGMOM line back to the original list. -/
theorem magmom_roundtrip_C3 :
    magmomTokens [1, 1, 1, 2] = ["3*1.0000", "1*2.0000"] ∧
    magmomLine [1, 1, 1, 2] = " MAGMOM = 3*1.0000 1*2.0000 \n" ∧
    readIncarMagmomLine (magmomLine [1, 1, 1, 2]) = some [1, 1, 1, 2] := by
  have htok : magmomTokens [1, 1, 1, 2] = ["3*1.0000", "1*2.0000"] := by
    simp +decide [magmomTokens, mergeRuns, rleStep, fmtFixed4, fmtFixed4Pos,
      roundHalfEven, natToStr, natDigitsAux, padZeros]
    norm_num [Int.fract]
    decide
  have hline : magmomLine [1, 1, 1, 2] = " MAGMOM = 3*1.0000 1*2.0000 \n" := by
    rw [magmomLine, htok]
    decide
  refine ⟨htok, hline, ?_⟩
  rw [hline]
  simp +decide [readIncarMagmomLine, incarTokens, pySplitWs, splitPred, isWs, replaceCharBy,
    toLowerL, magmomLoop, pyFloatQ, trimWs, splitChar, mantissaOfChars, signedMantissa,
    natOfDigits, natOfDigitsAux, digitVal, pyIntTrunc]

/-- Claim C5, confirmed: calling set with a name registered in none of
the nine category dictionaries raises the unknown-parameter TypeError and
leaves the whole parameter state unchanged. -/
theorem set_unknown_parameter_C5 (st : ParamState) (k : String) (v : PVal)
    (hxc : containsKey st.inputP "xc" = true)
    (hk : paramRegistered st k = false) :
    vaspSet st [(k, v)] =
      (st, some (PyErr.typeError ("Parameter not defined: " ++ k))) := by
  simp only [paramRegistered, Bool.or_eq_false_iff] at hk
  obtain ⟨⟨⟨⟨⟨⟨⟨⟨h1, h2⟩, h3⟩, h4⟩, h5⟩, h6⟩, h7⟩, h8⟩, h9⟩ := hk
  have hne : k ≠ "xc" := by
    intro h
    rw [h] at h9
    rw [h9] at hxc
    exact Bool.false_ne_true hxc
  have hlook : List.lookup "xc" [(k, v)] = none := by
    have hb : ("xc" == k) = false := beq_eq_false_iff_ne.mpr (Ne.symm hne)
    simp [List.lookup, hb]
  rw [vaspSet, hlook]
  simp [setPlainMany, setPlainOne, h1, h2, h3, h4, h5, h6, h7, h8, h9]

/-- Claim C5, witness: setting the unknown name not_a_real_key on the
freshly initialised registry raises the unknown-parameter TypeError and
sets no state. -/
theorem set_unknown_parameter_C5_witness :
    vaspSet initialParamState [("not_a_real_key", PVal.pint 1)] =
      (initialParamState,
       some (PyErr.typeError ("Parameter not defined: " ++ "not_a_real_key"))) :=
  set_unknown_parameter_C5 initialParamState "not_a_real_key" (PVal.pint 1)
    (by decide) (by decide)

/-- Claim C6, corrected: the per-atom magnetic-moments accessor returns
the None sentinel, with no exception path, whenever orbital projection
was not requested; the stress accessor, by contrast, raises
PropertyNotImplementedError when no stress was parsed instead of
returning a sentinel. -/
theorem accessors_C6 :
    (∀ (moments : Option (List ℚ)) (l : ℤ), l < 10 →
        getMagneticMoments (some l) none moments = none) ∧
    (∀ moments : Option (List ℚ), getMagneticMoments none none moments = none) ∧
    getStress none = Except.error PyErr.propertyNotImplementedError ∧
    (∀ s : StressT, getStress (some s) = Except.ok s) := by
  refine ⟨?_, ?_, rfl, fun s => rfl⟩
  · intro moments l hl
    simp [getMagneticMoments, rwigsTruthy, not_le.mpr hl]
  · intro moments
    simp [getMagneticMoments, rwigsTruthy]

/-- Claim C6, witness: the accessors evaluated at concrete inputs. -/
theorem accessors_C6_witness :
    getMagneticMoments (some 2) none (some [1, 1]) = none :=
  accessors_C6.1 (some [1, 1]) 2 (by decide)

/-- Claim C6, counterexample to the claim as stated: the stress accessor
does not return a sentinel as a normal value when no stress was parsed,
it raises PropertyNotImplementedError. -/
theorem getStress_raises_C6_cex :
    getStress none = Except.error PyErr.propertyNotImplementedError := rfl

/-- Claim C7, corrected: with neither environment variable present run
fails, before launching anything, with a RuntimeError whose message names
both VASP_COMMAND and VASP_SCRIPT; at least one source suffices rather
than exactly one: when both are present the direct command wins and no
error is raised, and an error can only arise with both sources absent. -/
theorem run_env_resolution_C7 :
    (∀ out : String, runResolve ⟨none, none⟩ out =
        Except.error (PyErr.runtimeError
          "Please set either VASP_COMMAND or VASP_SCRIPT environment variable")) ∧
    ("VASP_COMMAND".data.IsInfix
        "Please set either VASP_COMMAND or VASP_SCRIPT environment variable".data ∧
     "VASP_SCRIPT".data.IsInfix
        "Please set either VASP_COMMAND or VASP_SCRIPT environment variable".data) ∧
    (∀ (cmd out : String) (scriptOpt : Option String),
        runResolve ⟨some cmd, scriptOpt⟩ out =
          Except.ok (RunAction.shellCommand cmd out)) ∧
    (∀ (script out : String), runResolve ⟨none, some script⟩ out =
        Except.ok (RunAction.launcherScript script)) ∧
    (∀ (env : VaspEnv) (out : String) (e : PyErr),
        runResolve env out = Except.error e →
          env.vaspCommand = none ∧ env.vaspScript = none) := by
  refine ⟨fun out => rfl, ⟨by decide, by decide⟩, fun cmd out s => rfl,
    fun script out => rfl, ?_⟩
  intro env out e herr
  cases env with
  | mk c s =>
    cases c with
    | some cmd => exact absurd herr (by simp [runResolve])
    | none =>
      cases s with
      | some script => exact absurd herr (by simp [runResolve])
      | none => exact ⟨rfl, rfl⟩

/-- Claim C7, witness: the amended theorem evaluated with both variables
absent, including the only-failure-case component at that environment. -/
theorem run_env_resolution_C7_witness :
    runResolve ⟨none, none⟩ "vasp.out" =
      Except.error (PyErr.runtimeError
        "Please set either VASP_COMMAND or VASP_SCRIPT environment variable") ∧
    ((⟨none, none⟩ : VaspEnv).vaspCommand = none ∧
     (⟨none, none⟩ : VaspEnv).vaspScript = none) :=
  ⟨run_env_resolution_C7.1 "vasp.out",
   run_env_resolution_C7.2.2.2.2 ⟨none, none⟩ "vasp.out"
     (PyErr.runtimeError
       "Please set either VASP_COMMAND or VASP_SCRIPT environment variable")
     (run_env_resolution_C7.1 "vasp.out")⟩

/-- Claim C7, counterexample to the claim as stated: with both
environment sources present, run does not fail; it launches the direct
command, so exactly-one presence is not required. -/
theorem run_both_sources_C7_cex :
    runResolve ⟨some "vasp", some "run_vasp.py"⟩ "vasp.out" =
      Except.ok (RunAction.shellCommand "vasp" "vasp.out") := rfl

/-- Claim C8, confirmed: the convergence-delta token 0.2737684-111,
whose exponent marker is missing, is repaired by reinserting the marker
before the final sign, giving 0.2737684e-111, and parses to the finite
rational 0.2737684 times ten to the minus 111. -/
theorem exponent_repair_C8 :
    fixExponentToken " 0.2737684-111" = " 0.2737684e-111" ∧
    readConvDelta " 0.2737684-111" = some ((2737684 : ℚ) / 10 ^ 118) := by
  refine ⟨by decide, ?_⟩
  rw [readConvDelta, show fixExponentToken " 0.2737684-111" = " 0.2737684e-111" from by decide]
  simp +decide [pyFloatQ, trimWs, splitPred, splitChar, mantissaOfChars, signedMantissa,
    signedExponent, natOfDigits, natOfDigitsAux, digitVal, isWs]
  norm_num

/-- Claim C9, confirmed: the Python list comparison of the two absolute
energy-change deltas against the ediff threshold is lexicographic, so a
step is marked converged exactly when the first absolute delta is
strictly below the threshold, or equals it exactly while the second
absolute delta is strictly below it; whenever the first absolute delta
differs from the threshold the second delta has no influence. -/
theorem convStep_lexicographic_C9 :
    (∀ a b e : ℚ, convStepConverged a b e = true ↔ (|a| < e ∨ (|a| = e ∧ |b| < e))) ∧
    (∀ a b c e : ℚ, |a| ≠ e → convStepConverged a b e = convStepConverged a c e) := by
  have key : ∀ a b e : ℚ, convStepConverged a b e = true ↔ (|a| < e ∨ (|a| = e ∧ |b| < e)) := by
    intro a b e
    simp only [convStepConverged, pyListLt]
    split_ifs with h1 h2 h3 h4
    · exact iff_of_true rfl (Or.inl h1)
    · exact iff_of_false (by simp)
        (by rintro (h | ⟨h, -⟩); exacts [h1 h, absurd h (ne_of_gt h2)])
    · exact iff_of_true rfl (Or.inr ⟨le_antisymm (not_lt.mp h2) (not_lt.mp h1), h3⟩)
    · exact iff_of_false (by simp)
        (by rintro (h | ⟨-, hb⟩); exacts [h1 h, h3 hb])
    · exact iff_of_false (by simp)
        (by rintro (h | ⟨-, hb⟩); exacts [h1 h, h3 hb])
  refine ⟨key, ?_⟩
  intro a b c e hne
  rcases lt_trichotomy (|a|) e with h | h | h
  · rw [(key a b e).mpr (Or.inl h), (key a c e).mpr (Or.inl h)]
  · exact absurd h hne
  · have hfalse : ∀ x : ℚ, convStepConverged a x e = false := by
      intro x
      cases h0 : convStepConverged a x e
      · rfl
      · exfalso
        rcases (key a x e).mp h0 with h1 | ⟨h1, -⟩
        · exact absurd h1 (not_lt.mpr (le_of_lt h))
        · exact absurd h1 hne
    rw [hfalse b, hfalse c]

/-- Claim C9, witness: the second-delta independence applied at a first
delta strictly above the threshold. -/
theorem convStep_lexicographic_C9_witness :
    convStepConverged 2 3 1 = convStepConverged 2 4 1 :=
  convStep_lexicographic_C9.2 2 3 4 1 (by norm_num)

/-- Claim C10, confirmed: in set_xc_params the lower() call runs before
the is-None test, so the None branch is unreachable and the call
set(xc=None) raises AttributeError instead of being a no-op. -/
theorem set_xc_none_attribute_error_C10 :
    (∀ st : ParamState, setXcParamsM st PVal.pnone = (st, some PyErr.attributeError)) ∧
    (∀ st : ParamState, vaspSet st [("xc", PVal.pnone)] = (st, some PyErr.attributeError)) ∧
    (∀ v : PVal, setXcBranch v ≠ Except.ok XcBranch.noneBranch) := by
  have part1 : ∀ st : ParamState,
      setXcParamsM st PVal.pnone = (st, some PyErr.attributeError) := by
    intro st
    simp [setXcParamsM, pyLowerVal]
  refine ⟨part1, ?_, ?_⟩
  · intro st
    rw [vaspSet]
    simp only [List.lookup, beq_self_eq_true]
    rw [part1 st]
  · intro v
    cases v <;> simp [setXcBranch, pyLowerVal]
    rename_i s
    rcases xcDefaults.lookup (pyLower s) with - | b <;> simp


theorem readline_append (line rest : List ChgTok) (h : ChgTok.nl ∉ line) :
    readline (line ++ ChgTok.nl :: rest) = some (line, rest) := by
  induction line with
  | nil => rfl
  | cons t ts ih =>
    have ht : t ≠ ChgTok.nl := fun he => h (he ▸ List.mem_cons_self t ts)
    have hts : ChgTok.nl ∉ ts := fun hm => h (List.mem_cons_of_mem t hm)
    cases t <;> simp_all [readline, ih hts]

theorem fromfile_values (a : List ℚ) (m : ℕ) (s : List ChgTok) :
    fromfileN (a.length + m) (a.map ChgTok.value ++ s) =
      (fromfileN m s).map (fun p => (a ++ p.1, p.2)) := by
  induction a with
  | nil =>
    simp only [List.length_nil, Nat.zero_add, List.map_nil, List.nil_append]
    cases fromfileN m s with
    | none => rfl
    | some p => simp
  | cons q qs ih =>
    have harith : (q :: qs).length + m = (qs.length + m) + 1 := by
      simp [List.length_cons]; omega
    rw [harith]
    simp only [List.map_cons, List.cons_append]
    rw [show fromfileN ((qs.length + m) + 1) (ChgTok.value q :: (qs.map ChgTok.value ++ s)) =
        (fromfileN (qs.length + m) (qs.map ChgTok.value ++ s)).map
          (fun p => (q :: p.1, p.2)) from rfl]
    rw [ih]
    cases fromfileN m s with
    | none => rfl
    | some p => simp

theorem skipNl_nl (r : List ChgTok) : skipNl (ChgTok.nl :: r) = skipNl r := rfl

theorem fromfile_dataRows :
    ∀ (k : ℕ) (vals : List ℚ), vals.length ≤ k → ∀ rest : List ChgTok,
      fromfileN vals.length (dataRows vals ++ rest) = some (vals, skipNl rest) := by
  intro k
  induction k with
  | zero =>
    intro vals hk rest
    have h0 : vals = [] := List.length_eq_zero.mp (Nat.le_zero.mp hk)
    subst h0
    rw [dataRows]
    simp [fromfileN, skipNl]
  | succ k ih =>
    intro vals hk rest
    by_cases h10 : vals.length ≤ 10
    · rw [dataRows, if_pos h10]
      have := fromfile_values vals 0 (ChgTok.nl :: rest)
      rw [Nat.add_zero] at this
      rw [List.append_assoc, List.singleton_append, this]
      simp [fromfileN, skipNl_nl]
    · push_neg at h10
      rw [dataRows, if_neg (not_le.mpr h10)]
      have htk : (vals.take 10).length = 10 := by
        rw [List.length_take]
        omega
      have harith : vals.length = (vals.take 10).length + (vals.length - 10) := by
        rw [htk]; omega
      rw [harith, List.append_assoc, List.cons_append, fromfile_values]
      have hdk : (vals.drop 10).length = vals.length - 10 := List.length_drop ..
      have hpos : 0 < vals.length - 10 := by omega
      obtain ⟨m, hm⟩ := Nat.exists_eq_succ_of_ne_zero (Nat.pos_iff_ne_zero.mp hpos)
      rw [hm]
      rw [show fromfileN m.succ (ChgTok.nl :: (dataRows (vals.drop 10) ++ rest)) =
          fromfileN m.succ (dataRows (vals.drop 10) ++ rest) from rfl]
      rw [show m.succ = (vals.drop 10).length from by rw [hdk]; omega]
      rw [ih (vals.drop 10) (by rw [hdk]; omega) rest]
      simp [List.take_append_drop]

theorem readVCDLoop_nil (fuel : ℕ) (st : VaspChargeDensityM) :
    readVCDLoop fuel [] st = some st := by
  cases fuel with
  | zero => rfl
  | succ f => rfl

theorem readVCDLoop_intTok (fuel : ℕ) (n : ℕ) (l : List ChgTok)
    (st : VaspChargeDensityM) :
    readVCDLoop fuel (ChgTok.intTok n :: l) st = some st := by
  cases fuel with
  | zero => rfl
  | succ f => rfl

theorem nl_not_mem_dimsToks (d : ℕ × ℕ × ℕ) : ChgTok.nl ∉ dimsToks d := by
  simp [dimsToks]

theorem nl_not_mem_map_value (l : List ℚ) : ChgTok.nl ∉ l.map ChgTok.value := by
  simp

theorem parseDims_dimsToks (d : ℕ × ℕ × ℕ) : parseDims (dimsToks d) = some d := rfl


theorem readline_nl (w : List ChgTok) : readline (ChgTok.nl :: w) = some ([], w) := rfl

theorem readline_dims (d : ℕ × ℕ × ℕ) (w : List ChgTok) :
    readline (dimsToks d ++ ChgTok.nl :: w) = some (dimsToks d, w) :=
  readline_append _ _ (nl_not_mem_dimsToks d)

theorem read_frame_nospin (fuel : ℕ) (multi : Bool) (a : AtomsVol) (g : GridM)
    (rest : List ChgTok) (st : VaspChargeDensityM)
    (hv : a.volume ≠ 0)
    (hlen : g.vals.length = g.dims.1 * g.dims.2.1 * g.dims.2.2)
    (hrest : rest = [] ∨ ∃ b s, rest = ChgTok.structTok b :: ChgTok.nl :: s) :
    readVCDLoop (fuel + 1) (frameToks multi a g none ++ rest) st =
      readVCDLoop fuel rest
        { st with atomsList := st.atomsList ++ [a], chg := st.chg ++ [g] } := by
  have hNs : (g.vals.map (fun x => x * a.volume)).length =
      g.dims.1 * g.dims.2.1 * g.dims.2.2 := by
    rw [List.length_map]; exact hlen
  have h4 : ∀ T, fromfileN (g.dims.1 * g.dims.2.1 * g.dims.2.2)
      (dataRows (g.vals.map (fun x => x * a.volume)) ++ T) =
        some (g.vals.map (fun x => x * a.volume), skipNl T) := by
    intro T
    rw [← hNs]
    exact fromfile_dataRows _ _ le_rfl T
  have h5 : (g.vals.map (fun x => x * a.volume)).map (fun x => x / a.volume) = g.vals :=
    map_scale_unscale a.volume hv g.vals
  have hstream : frameToks multi a g none ++ rest =
      ChgTok.structTok a :: ChgTok.nl :: ChgTok.nl ::
      (dimsToks g.dims ++ ChgTok.nl ::
       (dataRows (g.vals.map (fun x => x * a.volume)) ++
        ((if multi then [ChgTok.nl] else []) ++ rest))) := by
    simp [frameToks, List.append_assoc]
  have h6 : skipNl ((if multi then [ChgTok.nl] else []) ++ rest) = rest := by
    rcases hrest with rfl | ⟨b, s, rfl⟩ <;> cases multi <;> simp [skipNl]
  rw [hstream]
  simp only [readVCDLoop, readStructBlock, readline_nl, readline_dims,
    parseDims_dimsToks, h4, h5, h6]
  rcases hrest with rfl | ⟨b, s, rfl⟩
  · rw [readVCDLoop_nil]
    rfl
  · rw [show readline (ChgTok.structTok b :: ChgTok.nl :: s) =
        some ([ChgTok.structTok b], s) from rfl]
    simp only [List.any_cons, List.any_nil, isAugTok, Bool.or_false]
    rw [if_neg (by simp [dimsToks])]
    rfl

theorem dataRows_shape (vals : List ℚ) (h : vals ≠ []) :
    ∃ row tail, dataRows vals = row.map ChgTok.value ++ ChgTok.nl :: tail ∧ row ≠ [] := by
  by_cases h10 : vals.length ≤ 10
  · refine ⟨vals, [], ?_, h⟩
    rw [dataRows, if_pos h10]
  · refine ⟨vals.take 10, dataRows (vals.drop 10), ?_, ?_⟩
    · rw [dataRows, if_neg h10]
    · have : (vals.take 10).length = 10 := by
        rw [List.length_take]; omega
      intro he
      rw [he] at this
      simp at this

theorem read_frame_spin (fuel : ℕ) (multi : Bool) (a : AtomsVol) (g d : GridM)
    (rest : List ChgTok) (st : VaspChargeDensityM)
    (hv : a.volume ≠ 0)
    (hlen : g.vals.length = g.dims.1 * g.dims.2.1 * g.dims.2.2)
    (hd : d.vals ≠ []) :
    readVCDLoop (fuel + 1) (frameToks multi a g (some d) ++ rest) st =
      some { st with atomsList := st.atomsList ++ [a], chg := st.chg ++ [g] } := by
  have hNs : (g.vals.map (fun x => x * a.volume)).length =
      g.dims.1 * g.dims.2.1 * g.dims.2.2 := by
    rw [List.length_map]; exact hlen
  have h4 : ∀ T, fromfileN (g.dims.1 * g.dims.2.1 * g.dims.2.2)
      (dataRows (g.vals.map (fun x => x * a.volume)) ++ T) =
        some (g.vals.map (fun x => x * a.volume), skipNl T) := by
    intro T
    rw [← hNs]
    exact fromfile_dataRows _ _ le_rfl T
  have h5 : (g.vals.map (fun x => x * a.volume)).map (fun x => x / a.volume) = g.vals :=
    map_scale_unscale a.volume hv g.vals
  have hsd : d.vals.map (fun x => x * a.volume) ≠ [] := by
    intro he
    exact hd (List.map_eq_nil_iff.mp he)
  obtain ⟨row, tail, hshape, hrow⟩ := dataRows_shape (d.vals.map (fun x => x * a.volume)) hsd
  have hstream : frameToks multi a g (some d) ++ rest =
      ChgTok.structTok a :: ChgTok.nl :: ChgTok.nl ::
      (dimsToks g.dims ++ ChgTok.nl ::
       (dataRows (g.vals.map (fun x => x * a.volume)) ++
        (ChgTok.nl ::
          ((dimsToks g.dims ++ row.map ChgTok.value) ++ ChgTok.nl ::
            (tail ++ ((if multi then [ChgTok.nl] else []) ++ rest)))))) := by
    simp [frameToks, hshape, List.append_assoc]
  have h6 : skipNl (ChgTok.nl ::
      ((dimsToks g.dims ++ row.map ChgTok.value) ++ ChgTok.nl ::
        (tail ++ ((if multi then [ChgTok.nl] else []) ++ rest)))) =
      (dimsToks g.dims ++ row.map ChgTok.value) ++ ChgTok.nl ::
        (tail ++ ((if multi then [ChgTok.nl] else []) ++ rest)) := by
    rw [skipNl_nl]
    cases hgd : g.dims.1 <;> simp [dimsToks, skipNl]
  have h7 : readline ((dimsToks g.dims ++ row.map ChgTok.value) ++ ChgTok.nl ::
      (tail ++ ((if multi then [ChgTok.nl] else []) ++ rest))) =
      some (dimsToks g.dims ++ row.map ChgTok.value,
        tail ++ ((if multi then [ChgTok.nl] else []) ++ rest)) := by
    apply readline_append
    intro hm
    rcases List.mem_append.mp hm with h | h
    · exact nl_not_mem_dimsToks _ h
    · exact nl_not_mem_map_value _ h
  have h8 : (dimsToks g.dims ++ row.map ChgTok.value).any isAugTok = false := by
    simp only [List.any_append, Bool.or_eq_false_iff]
    constructor
    · simp [dimsToks, isAugTok]
    · rw [List.any_eq_false]
      intro t ht
      rcases List.mem_map.mp ht with ⟨x, -, rfl⟩
      simp [isAugTok]
  have h9 : ¬ (dimsToks g.dims ++ row.map ChgTok.value = dimsToks g.dims) := by
    intro he
    have := congrArg List.length he
    simp only [List.length_append, List.length_map] at this
    have hr0 : row.length = 0 := by omega
    exact hrow (List.length_eq_zero.mp hr0)
  rw [hstream]
  simp only [readVCDLoop, readStructBlock, readline_nl, readline_dims,
    parseDims_dimsToks, h4, h5, h6, h7]
  rw [if_neg (by rw [h8]; exact Bool.false_ne_true), if_neg h9]
  rw [show (dimsToks g.dims ++ row.map ChgTok.value) ++ ChgTok.nl ::
      (tail ++ ((if multi then [ChgTok.nl] else []) ++ rest)) =
      ChgTok.intTok g.dims.1 :: ((dimsToks g.dims).tail ++ row.map ChgTok.value ++ ChgTok.nl ::
      (tail ++ ((if multi then [ChgTok.nl] else []) ++ rest))) from by simp [dimsToks]]
  rw [readVCDLoop_intTok]


theorem write_read_go_none :
    ∀ (gs : List GridM) (as : List AtomsVol) (multi : Bool),
      as.length = gs.length →
      (∀ a ∈ as, a.volume ≠ 0) →
      (∀ g ∈ gs, g.vals.length = g.dims.1 * g.dims.2.1 * g.dims.2.2) →
      ∀ (fuel : ℕ), gs.length ≤ fuel → ∀ st : VaspChargeDensityM,
        ∃ stream, writeChgGo multi gs as none = some stream ∧
          readVCDLoop fuel stream st =
            some ⟨st.atomsList ++ as, st.chg ++ gs, st.chgdiff⟩ ∧
          (stream = [] ∨ ∃ b s, stream = ChgTok.structTok b :: ChgTok.nl :: s) := by
  intro gs
  induction gs with
  | nil =>
    intro as multi hlen _ _ fuel _ st
    have h0 : as = [] := List.length_eq_zero.mp (by simpa using hlen)
    subst h0
    refine ⟨[], rfl, ?_, Or.inl rfl⟩
    rw [readVCDLoop_nil]
    cases st
    simp
  | cons g gs ih =>
    intro as multi hlen hvol hprod fuel hfuel st
    match as with
    | [] => simp at hlen
    | a :: as2 =>
      obtain ⟨f, rfl⟩ : ∃ f, fuel = f + 1 := ⟨fuel - 1, by simp at hfuel; omega⟩
      have hva : a.volume ≠ 0 := hvol a (List.mem_cons_self a as2)
      have hg : g.vals.length = g.dims.1 * g.dims.2.1 * g.dims.2.2 :=
        hprod g (List.mem_cons_self g gs)
      obtain ⟨stream2, hw2, hr2, hshape2⟩ := ih as2 multi (by simpa using hlen)
        (fun x hx => hvol x (List.mem_cons_of_mem a hx))
        (fun x hx => hprod x (List.mem_cons_of_mem g hx))
        f (by simp at hfuel; omega)
        { st with atomsList := st.atomsList ++ [a], chg := st.chg ++ [g] }
      refine ⟨frameToks multi a g none ++ stream2, ?_, ?_, Or.inr ⟨a, _, rfl⟩⟩
      · simp [writeChgGo, hw2]
      · rw [read_frame_nospin f multi a g stream2 st hva hg hshape2, hr2]
        simp [List.append_assoc]

theorem writeChgGo_spin_exists :
    ∀ (gs : List GridM) (as : List AtomsVol) (ds : List GridM) (multi : Bool),
      as.length = gs.length → ds.length = gs.length →
      ∃ stream, writeChgGo multi gs as (some ds) = some stream := by
  intro gs
  induction gs with
  | nil => intro as ds multi _ _; exact ⟨[], rfl⟩
  | cons g gs ih =>
    intro as ds multi hlen hds
    match as, ds with
    | [], _ => simp at hlen
    | _ :: _, [] => simp at hds
    | a :: as2, d :: ds2 =>
      obtain ⟨stream2, hw2⟩ := ih as2 ds2 multi (by simpa using hlen) (by simpa using hds)
      exact ⟨frameToks multi a g (some d) ++ stream2, by simp [writeChgGo, hw2]⟩

theorem writeChgGo_length_ge :
    ∀ (gs : List GridM) (as : List AtomsVol) (sp : Option (List GridM))
      (multi : Bool) (stream : List ChgTok),
      writeChgGo multi gs as sp = some stream → gs.length ≤ stream.length := by
  intro gs
  induction gs with
  | nil =>
    intro as sp multi stream h
    simp
  | cons g gs ih =>
    intro as sp multi stream h
    match as with
    | [] => simp [writeChgGo] at h
    | a :: as2 =>
      match sp with
      | none =>
        cases hw : writeChgGo multi gs as2 none with
        | none => rw [writeChgGo, hw] at h; simp at h
        | some s2 =>
          rw [writeChgGo, hw] at h
          simp only [Option.map] at h
          have hs : frameToks multi a g none ++ s2 = stream := Option.some_inj.mp h
          have hlen := ih as2 none multi s2 hw
          rw [← hs]
          simp only [frameToks, List.length_append, List.length_cons]
          omega
      | some [] => simp [writeChgGo] at h
      | some (d :: ds2) =>
        cases hw : writeChgGo multi gs as2 (some ds2) with
        | none => rw [writeChgGo, hw] at h; simp at h
        | some s2 =>
          rw [writeChgGo, hw] at h
          simp only [Option.map] at h
          have hs : frameToks multi a g (some d) ++ s2 = stream := Option.some_inj.mp h
          have hlen := ih as2 (some ds2) multi s2 hw
          rw [← hs]
          simp only [frameToks, List.length_append, List.length_cons]
          omega


/-- Claim C4, corrected. -/
theorem chg_roundtrip_C4 :
    (∀ v : ℚ, v ≠ 0 → ∀ l : List ℚ, (l.map (fun x => x * v)).map (fun x => x / v) = l) ∧
    (∀ st : VaspChargeDensityM,
      st.chgdiff = [] →
      st.atomsList.length = st.chg.length →
      (∀ a ∈ st.atomsList, a.volume ≠ 0) →
      (∀ g ∈ st.chg, g.vals.length = g.dims.1 * g.dims.2.1 * g.dims.2.2) →
      ∃ stream, writeVCDChg st = some stream ∧ readVCDChg stream = some st) ∧
    (∀ st : VaspChargeDensityM,
      st.chgdiff ≠ [] →
      st.atomsList.length = st.chg.length →
      st.chgdiff.length = st.chg.length →
      (∀ a ∈ st.atomsList, a.volume ≠ 0) →
      (∀ g ∈ st.chg, g.vals.length = g.dims.1 * g.dims.2.1 * g.dims.2.2) →
      (∀ d ∈ st.chgdiff, d.vals ≠ []) →
      ∃ (stream : List ChgTok) (a1 : AtomsVol) (g1 : GridM),
        st.atomsList.head? = some a1 ∧ st.chg.head? = some g1 ∧
        writeVCDChg st = some stream ∧
        readVCDChg stream = some ⟨[a1], [g1], []⟩) := by
  refine ⟨fun v hv l => map_scale_unscale v hv l, ?_, ?_⟩
  · rintro ⟨A, C, D⟩ hD hlen hvol hprod
    simp only at hD hlen hvol hprod
    subst hD
    obtain ⟨s0, hw0, -, -⟩ := write_read_go_none C A (decide (1 < C.length))
      hlen hvol hprod C.length le_rfl ⟨[], [], []⟩
    have hge := writeChgGo_length_ge C A none (decide (1 < C.length)) s0 hw0
    obtain ⟨stream, hw, hr, -⟩ := write_read_go_none C A (decide (1 < C.length))
      hlen hvol hprod (s0.length + 1) (by omega) ⟨[], [], []⟩
    have heq : stream = s0 := Option.some_inj.mp (hw.symm.trans hw0)
    subst heq
    refine ⟨stream, ?_, ?_⟩
    · rw [writeVCDChg]
      simpa [spinPolarized] using hw0
    · rw [readVCDChg, hr]
      simp
  · rintro ⟨A, C, D⟩ hne hlen hds hvol hprod hdvals
    simp only at hne hlen hds hvol hprod hdvals
    match C, A, D with
    | [], _, d :: ds2 => simp at hds
    | _ :: _, [], _ => simp at hlen
    | _ :: _, _, [] => exact absurd rfl hne
    | g :: gs, a :: as2, d :: ds2 =>
      obtain ⟨s2, hw2⟩ := writeChgGo_spin_exists gs as2 ds2 (decide (1 < (g :: gs).length))
        (by simpa using hlen) (by simpa using hds)
      have hva : a.volume ≠ 0 := hvol a (List.mem_cons_self a as2)
      have hg : g.vals.length = g.dims.1 * g.dims.2.1 * g.dims.2.2 :=
        hprod g (List.mem_cons_self g gs)
      have hd : d.vals ≠ [] := hdvals d (List.mem_cons_self d ds2)
      refine ⟨frameToks (decide (1 < (g :: gs).length)) a g (some d) ++ s2, a, g,
        rfl, rfl, ?_, ?_⟩
      · rw [writeVCDChg]
        have hsp : spinPolarized ⟨a :: as2, g :: gs, d :: ds2⟩ = true := by
          simp [spinPolarized]
        rw [hsp]
        show (writeChgGo (decide (1 < (g :: gs).length)) gs as2 (some ds2)).map
            (fun r => frameToks (decide (1 < (g :: gs).length)) a g (some d) ++ r)
          = some (frameToks (decide (1 < (g :: gs).length)) a g (some d) ++ s2)
        rw [hw2]
        rfl
      · rw [readVCDChg]
        rw [read_frame_spin _ _ a g d s2 ⟨[], [], []⟩ hva hg hd]
        rfl

/-- Claim C4, counterexample. -/
theorem chg_spin_roundtrip_C4_cex :
    (writeVCDChg chgStC4).isSome = true ∧
    readVCDChg ((writeVCDChg chgStC4).getD []) =
      some ⟨[⟨2⟩], [⟨(2, 1, 1), [1/2, 3]⟩], []⟩ ∧
    (⟨[⟨2⟩], [⟨(2, 1, 1), [1/2, 3]⟩], []⟩ : VaspChargeDensityM) ≠ chgStC4 := by
  refine ⟨?_, ?_, ?_⟩
  · simp +decide [writeVCDChg, writeChgGo, frameToks, dimsToks, dataRows,
      spinPolarized, chgStC4]
  · simp +decide [writeVCDChg, writeChgGo, frameToks, dimsToks, dataRows,
      spinPolarized, chgStC4, readVCDChg, readVCDLoop, readStructBlock, readline,
      parseDims, tokInt, fromfileN, fromfileTok, skipNl, isAugTok]
  · simp [chgStC4]

/-- Claim C4, witness. -/
theorem chg_roundtrip_C4_witness :
    (∃ stream,
       writeVCDChg ⟨[⟨2⟩, ⟨4⟩], [⟨(2, 1, 1), [1/2, 3]⟩, ⟨(1, 1, 1), [5]⟩], []⟩ = some stream ∧
       readVCDChg stream =
         some ⟨[⟨2⟩, ⟨4⟩], [⟨(2, 1, 1), [1/2, 3]⟩, ⟨(1, 1, 1), [5]⟩], []⟩) ∧
    (∃ (stream : List ChgTok) (a1 : AtomsVol) (g1 : GridM),
       chgStC4.atomsList.head? = some a1 ∧ chgStC4.chg.head? = some g1 ∧
       writeVCDChg chgStC4 = some stream ∧
       readVCDChg stream = some ⟨[a1], [g1], []⟩) := by
  constructor
  · exact chg_roundtrip_C4.2.1
      ⟨[⟨2⟩, ⟨4⟩], [⟨(2, 1, 1), [1/2, 3]⟩, ⟨(1, 1, 1), [5]⟩], []⟩
      rfl rfl (by intro a ha; fin_cases ha <;> norm_num) (by decide)
  · exact chg_roundtrip_C4.2.2 chgStC4
      (by simp [chgStC4]) rfl rfl
      (by intro a ha; fin_cases ha; norm_num [chgStC4])
      (by decide) (by decide)

end AseVasp
